import Mathlib

/-!
S3 logging endpoints of the Fastly client (`fastly/s3.go`)

A shallow embedding of `vendor/github.com/fastly/go-fastly/v2/fastly/s3.go`:
the five operations `ListS3s`, `CreateS3`, `GetS3`, `UpdateS3`, `DeleteS3`,
their input structures, and the sort used by `ListS3s`.

Modelling decisions.

* A Go `string` is a finite sequence of bytes: `GoString := List (Fin 256)`.
  String literals of the source are written `ascii "..."`.
* Go `int` is `Int`, Go `uint` is `Nat`; no arithmetic is done on them by this
  file, so no wrap-around is involved.
* A Go pointer (`*S3`, `*statusResp`, an element of a `[]*S3` slice) and a
  slice are an `Option`: `none` is `nil`. Reading a field through a nil pointer
  panics; an operation that panics has `panicked = true` in its outcome and
  returns neither a result nor an error.
* The HTTP client (`c.Get`, `c.PostForm`, `c.PutForm`, `c.Delete`) and
  `decodeBodyMap` are collaborators defined outside `s3.go`; they are
  parameters (`Client`, `Decoder`). Every call of a client method is appended
  to an explicit log of calls, which is how "no request is issued" and
  "exactly one request is issued" are stated.
* `sort.Stable`, `url.PathEscape` and `fmt.Sprintf` belong to the Go standard
  library; they are modelled after their documented behaviour.
-/

namespace Fastly

/-! ## Go strings -/

/-- A Go string is a sequence of bytes. -/
abbrev GoString := List (Fin 256)

/-- The bytes of an ASCII literal of the source. -/
def ascii (s : String) : GoString := s.toList.map (fun c => Fin.ofNat c.toNat)

/-- Go's `<` on strings: byte-wise lexicographic comparison, a proper prefix
being smaller. -/
def strLess : GoString → GoString → Bool
  | [], [] => false
  | [], _ :: _ => true
  | _ :: _, [] => false
  | a :: as, b :: bs => if a < b then true else if b < a then false else strLess as bs

/-- Go's `<=` on strings: `a <= b` is `!(b < a)`. -/
def strLe (a b : GoString) : Bool := !strLess b a

/-- The verb `%d` of `fmt.Sprintf` applied to an `int`: decimal digits, with a
leading `-` for a negative number. -/
def fmtInt (v : Int) : GoString :=
  if v < 0 then ascii "-" ++ ascii (Nat.repr v.natAbs) else ascii (Nat.repr v.toNat)

/-! ## `url.PathEscape` -/

/-- The table `upperhex` of `net/url`. -/
def upperhex : GoString := ascii "0123456789ABCDEF"

/-- `shouldEscape c encodePathSegment` of `net/url`: letters, digits and
`- _ . ~` are kept, as are the reserved `$ & + : = @`; the reserved
`/ ; , ?` and every other byte are escaped. -/
def shouldEscape (c : Fin 256) : Bool :=
  if (97 ≤ c.val ∧ c.val ≤ 122) ∨ (65 ≤ c.val ∧ c.val ≤ 90) ∨ (48 ≤ c.val ∧ c.val ≤ 57) then false
  else if c ∈ ascii "-_.~" then false
  else if c ∈ ascii "$&+,/:;=?@" then c ∈ ascii "/;,?"
  else true

/-- The bytes `escape` of `net/url` writes for one byte in path-segment mode:
the byte itself, or `%` followed by its two upper-case hexadecimal digits. -/
def escapeByte (c : Fin 256) : GoString :=
  if shouldEscape c then
    [37, upperhex.getD (c.val / 16) 0, upperhex.getD (c.val % 16) 0]
  else [c]

/-- `url.PathEscape`: every byte of the string is escaped on its own. -/
def PathEscape (s : GoString) : GoString := s.flatMap escapeByte

/-! ## Data model -/

/-- `time.Time`, never inspected by this file. -/
structure Time where
  unixNano : Int
  deriving DecidableEq, Repr

abbrev S3Redundancy := GoString
abbrev S3ServerSideEncryption := GoString

def S3RedundancyStandard : S3Redundancy := ascii "standard"
def S3RedundancyReduced : S3Redundancy := ascii "reduced_redundancy"
def S3ServerSideEncryptionAES : S3ServerSideEncryption := ascii "AES256"
def S3ServerSideEncryptionKMS : S3ServerSideEncryption := ascii "aws:kms"

/-- S3 represents a S3 response from the Fastly API. -/
structure S3 where
  ServiceID : GoString := []
  Version : Int := 0
  Name : GoString := []
  BucketName : GoString := []
  Domain : GoString := []
  AccessKey : GoString := []
  SecretKey : GoString := []
  Path : GoString := []
  Period : Nat := 0
  GzipLevel : Nat := 0
  Format : GoString := []
  FormatVersion : Nat := 0
  ResponseCondition : GoString := []
  MessageType : GoString := []
  TimestampFormat : GoString := []
  Placement : GoString := []
  PublicKey : GoString := []
  Redundancy : S3Redundancy := []
  ServerSideEncryptionKMSKeyID : GoString := []
  ServerSideEncryption : S3ServerSideEncryption := []
  CreatedAt : Option Time := none
  UpdatedAt : Option Time := none
  DeletedAt : Option Time := none
  deriving DecidableEq, Repr

/-- ListS3sInput is used as input to the ListS3s function. -/
structure ListS3sInput where
  Service : GoString := []
  Version : Int := 0
  deriving DecidableEq, Repr

/-- CreateS3Input is used as input to the CreateS3 function. -/
structure CreateS3Input where
  Service : GoString := []
  Version : Int := 0
  Name : GoString := []
  BucketName : GoString := []
  Domain : GoString := []
  AccessKey : GoString := []
  SecretKey : GoString := []
  Path : GoString := []
  Period : Nat := 0
  GzipLevel : Nat := 0
  Format : GoString := []
  MessageType : GoString := []
  FormatVersion : Nat := 0
  ResponseCondition : GoString := []
  TimestampFormat : GoString := []
  Redundancy : S3Redundancy := []
  Placement : GoString := []
  PublicKey : GoString := []
  ServerSideEncryptionKMSKeyID : GoString := []
  ServerSideEncryption : S3ServerSideEncryption := []
  deriving DecidableEq, Repr

/-- GetS3Input is used as input to the GetS3 function. -/
structure GetS3Input where
  Service : GoString := []
  Version : Int := 0
  Name : GoString := []
  deriving DecidableEq, Repr

/-- UpdateS3Input is used as input to the UpdateS3 function. -/
structure UpdateS3Input where
  Service : GoString := []
  Version : Int := 0
  Name : GoString := []
  NewName : GoString := []
  BucketName : GoString := []
  Domain : GoString := []
  AccessKey : GoString := []
  SecretKey : GoString := []
  Path : GoString := []
  Period : Nat := 0
  GzipLevel : Nat := 0
  Format : GoString := []
  FormatVersion : Nat := 0
  ResponseCondition : GoString := []
  MessageType : GoString := []
  TimestampFormat : GoString := []
  Redundancy : S3Redundancy := []
  Placement : GoString := []
  PublicKey : GoString := []
  ServerSideEncryptionKMSKeyID : GoString := []
  ServerSideEncryption : S3ServerSideEncryption := []
  deriving DecidableEq, Repr

/-- DeleteS3Input is the input parameter to DeleteS3. -/
structure DeleteS3Input where
  Service : GoString := []
  Version : Int := 0
  Name : GoString := []
  deriving DecidableEq, Repr

/-! ## Collaborators defined outside `s3.go` -/

/-- The error values an operation can return: the five sentinel errors that
`s3.go` names (declared in the package's `errors.go`) and any other error
value, as a transport or a decoder may produce. -/
inductive Error
  | ErrMissingService
  | ErrMissingVersion
  | ErrMissingName
  | ErrMissingKMSKeyID
  | ErrNotOK
  | other (msg : GoString)
  deriving DecidableEq, Repr

export Error (ErrMissingService ErrMissingVersion ErrMissingName ErrMissingKMSKeyID ErrNotOK)

/-- An HTTP response; only its body is read by `s3.go`. -/
structure Response where
  Body : GoString
  deriving DecidableEq, Repr

/-- One call of a method of the HTTP client, with the arguments `s3.go` passes
(the trailing `nil` request options are left out). -/
inductive Call
  | Get (path : GoString)
  | PostForm (path : GoString) (i : CreateS3Input)
  | PutForm (path : GoString) (i : UpdateS3Input)
  | Delete (path : GoString)
  deriving DecidableEq, Repr

/-- The HTTP client. What it answers to a call may depend on the calls made
before it. -/
structure Client where
  roundTrip : List Call → Call → Except Error Response

/-- The status document the API answers a deletion with. -/
structure statusResp where
  Status : GoString := []
  Msg : GoString := []
  deriving DecidableEq, Repr

/-- Modelled from the spec: the method `Ok` of `statusResp` is declared outside
`s3.go`; the spec speaks of a non-"ok" status response, so a response is ok
when its status is the string `ok`. The method reads the field through its
pointer receiver; the nil receiver is dealt with where `DeleteS3` calls it. -/
def statusResp.Ok (r : statusResp) : Bool := r.Status = ascii "ok"

/-- The function `decodeBodyMap`, at the three targets `s3.go` uses it with
(`*[]*S3`, `**S3`, `**statusResp`): it reads a response body and either fails or
succeeds, and on success the target is what the body made of it: possibly still
nil, and a slice possibly with nil elements (a body `null`, a `null` inside an
array). -/
structure Decoder where
  s3s : GoString → Except Error (Option (List (Option S3)))
  s3 : GoString → Except Error (Option S3)
  status : GoString → Except Error (Option statusResp)

/-- `c.Get(path, nil)`: the call is logged and answered. -/
def Client.Get (c : Client) (path : GoString) (log : List Call) :
    Except Error Response × List Call :=
  (c.roundTrip log (Call.Get path), log ++ [Call.Get path])

/-- `c.PostForm(path, i, nil)`: the call is logged and answered. -/
def Client.PostForm (c : Client) (path : GoString) (i : CreateS3Input) (log : List Call) :
    Except Error Response × List Call :=
  (c.roundTrip log (Call.PostForm path i), log ++ [Call.PostForm path i])

/-- `c.PutForm(path, i, nil)`: the call is logged and answered. -/
def Client.PutForm (c : Client) (path : GoString) (i : UpdateS3Input) (log : List Call) :
    Except Error Response × List Call :=
  (c.roundTrip log (Call.PutForm path i), log ++ [Call.PutForm path i])

/-- `c.Delete(path, nil)`: the call is logged and answered. -/
def Client.Delete (c : Client) (path : GoString) (log : List Call) :
    Except Error Response × List Call :=
  (c.roundTrip log (Call.Delete path), log ++ [Call.Delete path])

/-! ## `sort.Stable(s3sByName(s3s))` -/

/-- `s3sByName.Less`, that is `s[i].Name < s[j].Name` on elements of type
`*S3`: the names are compared when both pointers are non-nil; `none` is the
panic of reading `Name` through a nil pointer. -/
def s3sByName.Less : Option S3 → Option S3 → Option Bool
  | some a, some b => some (strLess a.Name b.Name)
  | _, _ => none

/-- The inner loop of the insertion sort of package `sort`
(`for j := i; j > a && data.Less(j, j-1); j-- { data.Swap(j, j-1) }`).
The second argument is the part of the slice before index `i`, nearest
neighbour first; the result is that part with `x` sunk into it, again nearest
the end first, or `none` when a call of `Less` panics. -/
def sinkLeft {α : Type} (less : α → α → Option Bool) (x : α) : List α → Option (List α)
  | [] => some [x]
  | y :: ys =>
    match less x y with
    | none => none
    | some true => (sinkLeft less x ys).map (fun t => y :: t)
    | some false => some (x :: y :: ys)

/-- The outer loop of the insertion sort of package `sort`: the elements still
to come are taken from left to right and each is sunk into the part before it
(kept nearest the end first). -/
def sinkAll {α : Type} (less : α → α → Option Bool) : List α → List α → Option (List α)
  | before, [] => some before
  | before, x :: rest =>
    match sinkLeft less x before with
    | none => none
    | some sunk => sinkAll less sunk rest

/-- `sort.Stable`, modelled after its contract (ascending order as determined
by `Less`, equal elements keep their original order) by the insertion sort of
package `sort`; `none` when a call of `Less` panics. -/
def sortStable {α : Type} (less : α → α → Option Bool) (l : List α) : Option (List α) :=
  (sinkAll less [] l).map List.reverse

/-! ### The same sort for a comparison that cannot panic

These definitions are not in the source: they are the sort above for a `Less`
that always answers, which is what `sortStable` comes to on a slice without nil
elements (`sortStable_map_some`). The properties of the sort are proved on
them. -/

/-- The comparison of `s3sByName.Less` on two entries that are there. -/
def lessByName (a b : S3) : Bool := strLess a.Name b.Name

/-- The inner loop `sinkLeft` for a comparison that always answers. -/
def sinkLeftTotal {α : Type} (less : α → α → Bool) (x : α) : List α → List α
  | [] => [x]
  | y :: ys => if less x y then y :: sinkLeftTotal less x ys else x :: y :: ys

/-- The sort `sortStable` for a comparison that always answers. -/
def sortStableTotal {α : Type} (less : α → α → Bool) (l : List α) : List α :=
  (l.foldl (fun before x => sinkLeftTotal less x before) []).reverse

/-! ## The operations -/

/-- How a call of an operation ends. When `panicked` is false the operation
returned, Go style, the result (`none` is `nil`) and the error (`none` is
`nil`). When `panicked` is true it did not return: a nil pointer was
dereferenced, and `result` and `err` are `none`. In both cases `calls` is the
log of client calls at the end. -/
structure Outcome (α : Type) where
  result : Option α
  err : Option Error
  calls : List Call
  panicked : Bool
  deriving DecidableEq, Repr

/-- How a call of `DeleteS3` ends: the error returned (`none` is `nil`, and
`none` when the operation panicked), the log of client calls at the end, and
whether the operation panicked instead of returning. -/
structure DeleteOutcome where
  err : Option Error
  calls : List Call
  panicked : Bool
  deriving DecidableEq, Repr

/-- The path `/service/%s/version/%d/logging/s3` of the collection. -/
def s3sPath (service : GoString) (version : Int) : GoString :=
  ascii "/service/" ++ service ++ ascii "/version/" ++ fmtInt version ++ ascii "/logging/s3"

/-- The path `/service/%s/version/%d/logging/s3/%s` of one entry, the name
going through `url.PathEscape`. -/
def s3Path (service : GoString) (version : Int) (name : GoString) : GoString :=
  ascii "/service/" ++ service ++ ascii "/version/" ++ fmtInt version ++ ascii "/logging/s3/"
    ++ PathEscape name

/-- ListS3s returns the list of S3s for the configuration version. -/
def ListS3s (c : Client) (d : Decoder) (i : ListS3sInput) (log : List Call) :
    Outcome (List (Option S3)) :=
  if i.Service = [] then ⟨none, some ErrMissingService, log, false⟩
  else if i.Version = 0 then ⟨none, some ErrMissingVersion, log, false⟩
  else
    let path := s3sPath i.Service i.Version
    match c.Get path log with
    | (Except.error err, log1) => ⟨none, some err, log1, false⟩
    | (Except.ok resp, log1) =>
      match d.s3s resp.Body with
      | Except.error err => ⟨none, some err, log1, false⟩
      | Except.ok none => ⟨none, none, log1, false⟩
      | Except.ok (some s3s) =>
        match sortStable s3sByName.Less s3s with
        | none => ⟨none, none, log1, true⟩
        | some sorted => ⟨some sorted, none, log1, false⟩

/-- CreateS3 creates a new Fastly S3. -/
def CreateS3 (c : Client) (d : Decoder) (i : CreateS3Input) (log : List Call) :
    Outcome S3 :=
  if i.Service = [] then ⟨none, some ErrMissingService, log, false⟩
  else if i.Version = 0 then ⟨none, some ErrMissingVersion, log, false⟩
  else if i.ServerSideEncryption = S3ServerSideEncryptionKMS
      ∧ i.ServerSideEncryptionKMSKeyID = [] then
    ⟨none, some ErrMissingKMSKeyID, log, false⟩
  else
    let path := s3sPath i.Service i.Version
    match c.PostForm path i log with
    | (Except.error err, log1) => ⟨none, some err, log1, false⟩
    | (Except.ok resp, log1) =>
      match d.s3 resp.Body with
      | Except.error err => ⟨none, some err, log1, false⟩
      | Except.ok s3 => ⟨s3, none, log1, false⟩

/-- GetS3 gets the S3 configuration with the given parameters. -/
def GetS3 (c : Client) (d : Decoder) (i : GetS3Input) (log : List Call) :
    Outcome S3 :=
  if i.Service = [] then ⟨none, some ErrMissingService, log, false⟩
  else if i.Version = 0 then ⟨none, some ErrMissingVersion, log, false⟩
  else if i.Name = [] then ⟨none, some ErrMissingName, log, false⟩
  else
    let path := s3Path i.Service i.Version i.Name
    match c.Get path log with
    | (Except.error err, log1) => ⟨none, some err, log1, false⟩
    | (Except.ok resp, log1) =>
      match d.s3 resp.Body with
      | Except.error err => ⟨none, some err, log1, false⟩
      | Except.ok s3 => ⟨s3, none, log1, false⟩

/-- UpdateS3 updates a specific S3. -/
def UpdateS3 (c : Client) (d : Decoder) (i : UpdateS3Input) (log : List Call) :
    Outcome S3 :=
  if i.Service = [] then ⟨none, some ErrMissingService, log, false⟩
  else if i.Version = 0 then ⟨none, some ErrMissingVersion, log, false⟩
  else if i.Name = [] then ⟨none, some ErrMissingName, log, false⟩
  else if i.ServerSideEncryption = S3ServerSideEncryptionKMS
      ∧ i.ServerSideEncryptionKMSKeyID = [] then
    ⟨none, some ErrMissingKMSKeyID, log, false⟩
  else
    let path := s3Path i.Service i.Version i.Name
    match c.PutForm path i log with
    | (Except.error err, log1) => ⟨none, some err, log1, false⟩
    | (Except.ok resp, log1) =>
      match d.s3 resp.Body with
      | Except.error err => ⟨none, some err, log1, false⟩
      | Except.ok s3 => ⟨s3, none, log1, false⟩

/-- DeleteS3 deletes the given S3 version. The call `r.Ok()` reads a field
through `r`, so it panics when the decoder left `r` nil. -/
def DeleteS3 (c : Client) (d : Decoder) (i : DeleteS3Input) (log : List Call) :
    DeleteOutcome :=
  if i.Service = [] then ⟨some ErrMissingService, log, false⟩
  else if i.Version = 0 then ⟨some ErrMissingVersion, log, false⟩
  else if i.Name = [] then ⟨some ErrMissingName, log, false⟩
  else
    let path := s3Path i.Service i.Version i.Name
    match c.Delete path log with
    | (Except.error err, log1) => ⟨some err, log1, false⟩
    | (Except.ok resp, log1) =>
      match d.status resp.Body with
      | Except.error err => ⟨some err, log1, false⟩
      | Except.ok none => ⟨none, log1, true⟩
      | Except.ok (some r) =>
        if !r.Ok then ⟨some ErrNotOK, log1, false⟩ else ⟨none, log1, false⟩

/-! ## Fixtures used by the closed examples -/

/-- A client that answers every call with an empty body. -/
def okClient : Client := ⟨fun _ _ => Except.ok ⟨[]⟩⟩

/-- A client whose every call fails with a transport error. -/
def downClient : Client := ⟨fun _ _ => Except.error (Error.other (ascii "connection refused"))⟩

/-- A decoder that yields fixed values whatever the body. -/
def constDecoder (l : Option (List (Option S3))) (s : Option S3) (r : Option statusResp) :
    Decoder :=
  ⟨fun _ => Except.ok l, fun _ => Except.ok s, fun _ => Except.ok r⟩

/-- A decoder that fails on every body. -/
def badDecoder : Decoder :=
  ⟨fun _ => Except.error (Error.other (ascii "EOF")),
   fun _ => Except.error (Error.other (ascii "EOF")),
   fun _ => Except.error (Error.other (ascii "EOF"))⟩

/-- The byte `/`. -/
def slash : Fin 256 := 47

/-- Three entries as a server may list them: names b, a, a. -/
def unsortedEntries : List S3 :=
  [{ Name := ascii "b", BucketName := ascii "third" },
   { Name := ascii "a", BucketName := ascii "first" },
   { Name := ascii "a", BucketName := ascii "second" }]

/-- The three entries of `unsortedEntries`, by name, equal names in the order
of the listing. -/
def sortedEntries : List S3 :=
  [{ Name := ascii "a", BucketName := ascii "first" },
   { Name := ascii "a", BucketName := ascii "second" },
   { Name := ascii "b", BucketName := ascii "third" }]

/-- A decoded slice of two elements, the second one nil (a body such as
`[{"name":"a"},null]`). -/
def entriesWithNil : List (Option S3) :=
  [some { Name := ascii "a", BucketName := ascii "first" }, none]

/-- A decoded slice whose non-nil elements have the same name and which ends
with a nil element. -/
def sameNameEntriesWithNil : List (Option S3) :=
  [some { Name := ascii "a", BucketName := ascii "first" },
   some { Name := ascii "a", BucketName := ascii "second" }, none]

/-- A CreateS3Input with a Service and a Version and no Name. -/
def namelessInput : CreateS3Input :=
  { Service := ascii "svc", Version := 1, Name := [], BucketName := ascii "logs" }

/-- A CreateS3Input whose Redundancy and ServerSideEncryption are none of the
declared constants. -/
def unlistedInput : CreateS3Input :=
  { Service := ascii "svc", Version := 1, Name := ascii "logs",
    Redundancy := ascii "glacier", ServerSideEncryption := ascii "rot13" }

/-! ## The order on Go strings -/

theorem strLess_irrefl (a : GoString) : strLess a a = false := by
  induction a with
  | nil => rfl
  | cons x xs ih => simp [strLess, ih]

theorem strLess_trans : ∀ a b c : GoString,
    strLess a b = true → strLess b c = true → strLess a c = true := by
  intro a
  induction a with
  | nil =>
    intro b c hab hbc
    cases b with
    | nil => simp [strLess] at hab
    | cons y ys =>
      cases c with
      | nil => simp [strLess] at hbc
      | cons z zs => simp [strLess]
  | cons x xs ih =>
    intro b c hab hbc
    cases b with
    | nil => simp [strLess] at hab
    | cons y ys =>
      cases c with
      | nil => simp [strLess] at hbc
      | cons z zs =>
        simp only [strLess] at hab hbc ⊢
        by_cases hxy : x < y
        · by_cases hyz : y < z
          · simp [lt_trans hxy hyz]
          · by_cases hzy : z < y
            · simp [hyz, hzy] at hbc
            · have : y = z := le_antisymm (not_lt.mp hzy) (not_lt.mp hyz)
              subst this
              simp [hxy]
        · by_cases hyx : y < x
          · simp [hxy, hyx] at hab
          · have hxy2 : x = y := le_antisymm (not_lt.mp hyx) (not_lt.mp hxy)
            subst hxy2
            simp only [hxy, if_false] at hab
            by_cases hxz : x < z
            · simp [hxz]
            · by_cases hzx : z < x
              · simp [hxz, hzx] at hbc
              · simp only [hxz, hzx, if_false] at hbc ⊢
                exact ih ys zs hab hbc

theorem strLess_total : ∀ a b : GoString,
    strLess a b = false → strLess b a = false → a = b := by
  intro a
  induction a with
  | nil =>
    intro b hab _
    cases b with
    | nil => rfl
    | cons y ys => simp [strLess] at hab
  | cons x xs ih =>
    intro b hab hba
    cases b with
    | nil => simp [strLess] at hba
    | cons y ys =>
      simp only [strLess] at hab hba
      by_cases hxy : x < y
      · simp [hxy] at hab
      · by_cases hyx : y < x
        · simp [hyx] at hba
        · have hxy2 : x = y := le_antisymm (not_lt.mp hyx) (not_lt.mp hxy)
          subst hxy2
          simp only [hxy, if_false] at hab hba
          rw [ih ys hab hba]

theorem strLess_asymm (a b : GoString) (h : strLess a b = true) : strLess b a = false := by
  cases hba : strLess b a with
  | false => rfl
  | true =>
    have := strLess_trans a b a h hba
    rw [strLess_irrefl] at this
    exact absurd this (by simp)

/-- Go's `<=` on strings is "smaller or equal". -/
theorem strLe_iff (a b : GoString) : strLe a b = true ↔ strLess a b = true ∨ a = b := by
  unfold strLe
  constructor
  · intro h
    have hba : strLess b a = false := by simpa using h
    cases hab : strLess a b with
    | true => exact Or.inl rfl
    | false => exact Or.inr (strLess_total a b hab hba)
  · rintro (h | h)
    · simp [strLess_asymm a b h]
    · subst h
      simp [strLess_irrefl]

theorem strLe_trans (a b c : GoString) (hab : strLe a b = true) (hbc : strLe b c = true) :
    strLe a c = true := by
  rw [strLe_iff] at hab hbc ⊢
  rcases hab with hab | rfl
  · rcases hbc with hbc | rfl
    · exact Or.inl (strLess_trans a b c hab hbc)
    · exact Or.inl hab
  · exact hbc

/-! ## The sort -/

section Sorting

variable {α : Type} (less : α → α → Bool)

theorem sinkLeftTotal_perm (x : α) (r : List α) : (sinkLeftTotal less x r).Perm (x :: r) := by
  induction r with
  | nil => exact List.Perm.refl _
  | cons y ys ih =>
    unfold sinkLeftTotal
    split
    · exact ((List.Perm.cons y ih).trans (List.Perm.swap x y ys))
    · exact List.Perm.refl _

theorem foldl_sinkLeftTotal_perm (l acc : List α) :
    (l.foldl (fun before x => sinkLeftTotal less x before) acc).Perm (l ++ acc) := by
  induction l generalizing acc with
  | nil => exact List.Perm.refl _
  | cons x t ih =>
    simp only [List.foldl_cons, List.cons_append]
    refine (ih (sinkLeftTotal less x acc)).trans ?_
    refine (List.Perm.append_left t (sinkLeftTotal_perm less x acc)).trans ?_
    exact List.perm_middle

theorem sortStableTotal_perm (l : List α) : (sortStableTotal less l).Perm l := by
  unfold sortStableTotal
  refine (List.reverse_perm _).trans ?_
  simpa using foldl_sinkLeftTotal_perm less l []

theorem sinkLeftTotal_pairwise
    (hasymm : ∀ a b, less a b = true → less b a = false)
    (hneg : ∀ a b c, less a b = false → less b c = false → less a c = false)
    (x : α) (r : List α) (hr : r.Pairwise (fun a b => less a b = false)) :
    (sinkLeftTotal less x r).Pairwise (fun a b => less a b = false) := by
  induction r with
  | nil => simp [sinkLeftTotal]
  | cons y ys ih =>
    rw [List.pairwise_cons] at hr
    unfold sinkLeftTotal
    split
    · rename_i hxy
      rw [List.pairwise_cons]
      refine ⟨?_, ih hr.2⟩
      intro z hz
      rcases List.mem_cons.mp ((sinkLeftTotal_perm less x ys).mem_iff.mp hz) with rfl | hz
      · exact hasymm _ _ hxy
      · exact hr.1 z hz
    · rename_i hxy
      have hxy2 : less x y = false := by simpa using hxy
      rw [List.pairwise_cons]
      refine ⟨?_, List.pairwise_cons.mpr hr⟩
      intro z hz
      rcases List.mem_cons.mp hz with rfl | hz
      · exact hxy2
      · exact hneg _ _ _ hxy2 (hr.1 z hz)

theorem foldl_sinkLeftTotal_pairwise
    (hasymm : ∀ a b, less a b = true → less b a = false)
    (hneg : ∀ a b c, less a b = false → less b c = false → less a c = false)
    (l acc : List α) (hacc : acc.Pairwise (fun a b => less a b = false)) :
    (l.foldl (fun before x => sinkLeftTotal less x before) acc).Pairwise
      (fun a b => less a b = false) := by
  induction l generalizing acc with
  | nil => exact hacc
  | cons x t ih => exact ih _ (sinkLeftTotal_pairwise less hasymm hneg x acc hacc)

/-- The result of the sort is ascending: no element is smaller than one before
it. -/
theorem sortStableTotal_pairwise
    (hasymm : ∀ a b, less a b = true → less b a = false)
    (hneg : ∀ a b c, less a b = false → less b c = false → less a c = false)
    (l : List α) : (sortStableTotal less l).Pairwise (fun a b => less b a = false) := by
  unfold sortStableTotal
  rw [List.pairwise_reverse]
  exact foldl_sinkLeftTotal_pairwise less hasymm hneg l [] List.Pairwise.nil

theorem sinkLeftTotal_filter (p : α → Bool)
    (hp : ∀ a b, p a = true → p b = true → less a b = false)
    (x : α) (r : List α) : (sinkLeftTotal less x r).filter p = (x :: r).filter p := by
  induction r with
  | nil => rfl
  | cons y ys ih =>
    unfold sinkLeftTotal
    split
    · rename_i hxy
      by_cases hy : p y = true
      · have hx : p x = false := by
          cases hpx : p x with
          | false => rfl
          | true => rw [hp x y hpx hy] at hxy; exact absurd hxy (by simp)
        rw [List.filter_cons_of_pos hy, ih]
        simp [List.filter_cons, hx, hy]
      · have hy2 : p y = false := by simpa using hy
        rw [List.filter_cons_of_neg hy, ih]
        simp [List.filter_cons, hy2]
    · rfl

theorem foldl_sinkLeftTotal_filter (p : α → Bool)
    (hp : ∀ a b, p a = true → p b = true → less a b = false)
    (l acc : List α) :
    (l.foldl (fun before x => sinkLeftTotal less x before) acc).filter p
      = (l.filter p).reverse ++ acc.filter p := by
  induction l generalizing acc with
  | nil => simp
  | cons x t ih =>
    simp only [List.foldl_cons]
    rw [ih, sinkLeftTotal_filter less p hp]
    by_cases hx : p x = true
    · simp [List.filter_cons, hx]
    · simp [List.filter_cons, hx]

/-- The sort is stable: elements that the order cannot tell apart keep their
order. -/
theorem sortStableTotal_filter (p : α → Bool)
    (hp : ∀ a b, p a = true → p b = true → less a b = false)
    (l : List α) : (sortStableTotal less l).filter p = l.filter p := by
  unfold sortStableTotal
  rw [List.filter_reverse, foldl_sinkLeftTotal_filter less p hp]
  simp

theorem foldl_sinkLeftTotal_sorted (l acc : List α)
    (h : (acc.reverse ++ l).Pairwise (fun a b => less b a = false)) :
    l.foldl (fun before x => sinkLeftTotal less x before) acc = l.reverse ++ acc := by
  induction l generalizing acc with
  | nil => simp
  | cons x t ih =>
    have hx : sinkLeftTotal less x acc = x :: acc := by
      cases acc with
      | nil => rfl
      | cons y ys =>
        have hxy : less x y = false := by
          rw [List.pairwise_append] at h
          exact h.2.2 y (by simp) x (by simp)
        simp [sinkLeftTotal, hxy]
    simp only [List.foldl_cons, hx]
    rw [ih (x :: acc) (by simpa using h)]
    simp

/-- Sorting an ascending list changes nothing. -/
theorem sortStableTotal_sorted (l : List α) (h : l.Pairwise (fun a b => less b a = false)) :
    sortStableTotal less l = l := by
  unfold sortStableTotal
  rw [foldl_sinkLeftTotal_sorted less l [] (by simpa using h)]
  simp

end Sorting

theorem Less_asymm (a b : S3) (h : lessByName a b = true) : lessByName b a = false :=
  strLess_asymm _ _ h

theorem Less_negTrans (a b c : S3) (hab : lessByName a b = false)
    (hbc : lessByName b c = false) : lessByName a c = false := by
  have h1 : strLe b.Name a.Name = true := by simpa [strLe, lessByName] using hab
  have h2 : strLe c.Name b.Name = true := by simpa [strLe, lessByName] using hbc
  have := strLe_trans _ _ _ h2 h1
  simpa [strLe, lessByName] using this

theorem Less_sameName (n : GoString) (a b : S3) (ha : decide (a.Name = n) = true)
    (hb : decide (b.Name = n) = true) : lessByName a b = false := by
  have ha2 : a.Name = n := by simpa using ha
  have hb2 : b.Name = n := by simpa using hb
  simp [lessByName, ha2, hb2, strLess_irrefl]

/-- Among the lists that are ascending by name there is only one with given
per-name sublists: the contract of a stable sort determines its result. -/
theorem sorted_stable_unique : ∀ r₁ r₂ : List S3,
    r₁.Pairwise (fun a b => strLe a.Name b.Name = true) →
    r₂.Pairwise (fun a b => strLe a.Name b.Name = true) →
    (∀ n : GoString, r₁.filter (fun e => decide (e.Name = n))
      = r₂.filter (fun e => decide (e.Name = n))) →
    r₁ = r₂ := by
  have hnil : ∀ r : List S3, (∀ n : GoString, r.filter (fun e => decide (e.Name = n)) = []) →
      r = [] := by
    intro r h
    cases r with
    | nil => rfl
    | cons b t => have := h b.Name; simp [List.filter_cons] at this
  have hhead : ∀ (a b : S3) (t₁ t₂ : List S3),
      (b :: t₂).Pairwise (fun a b => strLe a.Name b.Name = true) →
      (∀ n : GoString, (a :: t₁).filter (fun e => decide (e.Name = n))
        = (b :: t₂).filter (fun e => decide (e.Name = n))) →
      strLe b.Name a.Name = true := by
    intro a b t₁ t₂ hs hf
    have hmem : a ∈ (b :: t₂).filter (fun e => decide (e.Name = a.Name)) := by
      rw [← hf a.Name]; simp [List.filter_cons]
    have hab : a ∈ b :: t₂ := (List.mem_filter.mp hmem).1
    rcases List.mem_cons.mp hab with rfl | hat
    · simp [strLe, strLess_irrefl]
    · exact (List.pairwise_cons.mp hs).1 a hat
  intro r₁
  induction r₁ with
  | nil =>
    intro r₂ _ _ hf
    exact (hnil r₂ (fun n => by rw [← hf n]; rfl)).symm
  | cons a t₁ ih =>
    intro r₂ h₁ h₂ hf
    cases r₂ with
    | nil => exact hnil _ (fun n => by rw [hf n]; rfl)
    | cons b t₂ =>
      have hba := hhead a b t₁ t₂ h₂ hf
      have hab := hhead b a t₂ t₁ h₁ (fun n => (hf n).symm)
      have hname : a.Name = b.Name := by
        unfold strLe at hba hab
        exact strLess_total _ _ (by simpa using hba) (by simpa using hab)
      have hfa := hf a.Name
      simp only [List.filter_cons, hname, decide_True, if_true] at hfa
      have heq : a = b := (List.cons.inj hfa).1
      subst heq
      congr 1
      refine ih t₂ (List.pairwise_cons.mp h₁).2 (List.pairwise_cons.mp h₂).2 ?_
      intro n
      have hfn := hf n
      simp only [List.filter_cons] at hfn
      split at hfn
      · exact (List.cons.inj hfn).2
      · exact hfn

/-- Any list that meets the contract of `sort.Stable` for the list `l`
(ascending by name, entries of one name in the order they have in `l`) is the
list `sortStableTotal` computes, so the model does not depend on the algorithm
chosen for it. -/
theorem sortStableTotal_determined (l r : List S3)
    (hr : r.Pairwise (fun a b => strLe a.Name b.Name = true))
    (hf : ∀ n : GoString, r.filter (fun e => decide (e.Name = n))
      = l.filter (fun e => decide (e.Name = n))) :
    r = sortStableTotal lessByName l := by
  refine sorted_stable_unique r _ hr ?_ ?_
  · have := sortStableTotal_pairwise lessByName Less_asymm Less_negTrans l
    refine this.imp ?_
    intro a b hab
    simpa [strLe, lessByName] using hab
  · intro n
    rw [hf n, sortStableTotal_filter lessByName _ (Less_sameName n) l]

/-! ## The sort of a slice of pointers -/

theorem sinkLeft_map_some (x : S3) (ys : List S3) :
    sinkLeft s3sByName.Less (some x) (ys.map some)
      = some ((sinkLeftTotal lessByName x ys).map some) := by
  induction ys with
  | nil => rfl
  | cons y t ih =>
    simp only [List.map_cons, sinkLeft, s3sByName.Less, sinkLeftTotal, lessByName]
    rw [ih]
    by_cases hxy : strLess x.Name y.Name = true
    · simp [hxy]
    · have hxy2 : strLess x.Name y.Name = false := by simpa using hxy
      simp [hxy2]

theorem sinkAll_map_some (rest before : List S3) :
    sinkAll s3sByName.Less (before.map some) (rest.map some)
      = some ((rest.foldl (fun b x => sinkLeftTotal lessByName x b) before).map some) := by
  induction rest generalizing before with
  | nil => rfl
  | cons x t ih =>
    simp only [List.map_cons, sinkAll, sinkLeft_map_some, List.foldl_cons]
    exact ih _

/-- On a slice without nil elements no comparison panics, and the sort is the
sort of the entries by name. -/
theorem sortStable_map_some (l : List S3) :
    sortStable s3sByName.Less (l.map some)
      = some ((sortStableTotal lessByName l).map some) := by
  have h := sinkAll_map_some l []
  simp only [List.map_nil] at h
  simp [sortStable, sortStableTotal, h, List.map_reverse]

theorem sinkLeft_ne_nil {α : Type} (less : α → α → Option Bool) (x : α) :
    ∀ (before sunk : List α), sinkLeft less x before = some sunk → sunk ≠ [] := by
  intro before
  induction before with
  | nil => intro sunk h; simp [sinkLeft] at h; rw [← h]; simp
  | cons y ys ih =>
    intro sunk h
    simp only [sinkLeft] at h
    cases hxy : less x y with
    | none => simp [hxy] at h
    | some b =>
      cases b with
      | true =>
        simp only [hxy] at h
        cases ht : sinkLeft less x ys with
        | none => simp [ht] at h
        | some t => simp [ht] at h; rw [← h]; simp
      | false => simp [hxy] at h; rw [← h]; simp

theorem Less_nil_right (x : Option S3) : s3sByName.Less x none = none := by
  cases x <;> rfl

theorem sinkAll_nil_entry (rest : List (Option S3)) :
    ∀ before : List (Option S3), before ≠ [] → none ∈ rest →
      sinkAll s3sByName.Less before rest = none := by
  induction rest with
  | nil => intro before _ h; simp at h
  | cons x t ih =>
    intro before hb hmem
    cases before with
    | nil => exact absurd rfl hb
    | cons y ys =>
      simp only [sinkAll]
      cases hs : sinkLeft s3sByName.Less x (y :: ys) with
      | none => rfl
      | some sunk =>
        rcases List.mem_cons.mp hmem with hx | ht
        · subst hx
          simp [sinkLeft, s3sByName.Less] at hs
        · exact ih sunk (sinkLeft_ne_nil _ _ _ _ hs) ht

/-- On a slice of two or more elements one of which is nil, a comparison
reads through the nil pointer: the sort panics. -/
theorem sortStable_nil_entry (l : List (Option S3)) (hlen : 2 ≤ l.length) (hmem : none ∈ l) :
    sortStable s3sByName.Less l = none := by
  cases l with
  | nil => simp at hlen
  | cons a t =>
    cases t with
    | nil => simp at hlen
    | cons b u =>
      have hgoal : sinkAll s3sByName.Less [a] (b :: u) = none := by
        rcases List.mem_cons.mp hmem with ha | hrest
        · subst ha
          simp [sinkAll, sinkLeft, Less_nil_right]
        · exact sinkAll_nil_entry (b :: u) [a] (by simp) hrest
      have hstep : sinkAll s3sByName.Less [] (a :: b :: u)
          = sinkAll s3sByName.Less [a] (b :: u) := rfl
      unfold sortStable
      rw [hstep, hgoal]
      rfl

/-! ## Escaped path segments -/

set_option maxRecDepth 100000 in
theorem slash_not_mem_escapeByte : ∀ c : Fin 256, slash ∉ escapeByte c := by
  decide

theorem escapeByte_ne_nil (c : Fin 256) : escapeByte c ≠ [] := by
  unfold escapeByte
  split <;> simp

theorem slash_not_mem_PathEscape (s : GoString) : slash ∉ PathEscape s := by
  unfold PathEscape
  intro h
  rcases List.mem_flatMap.mp h with ⟨c, _, hc⟩
  exact slash_not_mem_escapeByte c hc

theorem PathEscape_ne_nil (s : GoString) (h : s ≠ []) : PathEscape s ≠ [] := by
  cases s with
  | nil => exact absurd rfl h
  | cons c t =>
    unfold PathEscape
    intro hnil
    have hc : escapeByte c = [] := by
      have h2 : escapeByte c = [] ∧ ∀ x ∈ t, escapeByte x = [] := by simpa using hnil
      exact h2.1
    exact escapeByte_ne_nil c hc

/-! ## What each operation does once local validation has passed -/

theorem s3Path_eq (service : GoString) (version : Int) (name : GoString) :
    s3Path service version name = s3sPath service version ++ ascii "/" ++ PathEscape name := by
  have h : ascii "/logging/s3/" = ascii "/logging/s3" ++ ascii "/" := by decide
  simp only [s3Path, s3sPath, h, List.append_assoc]

section Steps

variable (c : Client) (d : Decoder) (log : List Call)

theorem ListS3s_transport_error (i : ListS3sInput) (e : Error)
    (hs : i.Service ≠ []) (hv : i.Version ≠ 0)
    (h : c.roundTrip log (Call.Get (s3sPath i.Service i.Version)) = Except.error e) :
    ListS3s c d i log = ⟨none, some e, log ++ [Call.Get (s3sPath i.Service i.Version)], false⟩ := by
  simp [ListS3s, Client.Get, hs, hv, h]

theorem ListS3s_decode_error (i : ListS3sInput) (resp : Response) (e : Error)
    (hs : i.Service ≠ []) (hv : i.Version ≠ 0)
    (h : c.roundTrip log (Call.Get (s3sPath i.Service i.Version)) = Except.ok resp)
    (hd : d.s3s resp.Body = Except.error e) :
    ListS3s c d i log = ⟨none, some e, log ++ [Call.Get (s3sPath i.Service i.Version)], false⟩ := by
  simp [ListS3s, Client.Get, hs, hv, h, hd]

theorem ListS3s_ok_nil (i : ListS3sInput) (resp : Response)
    (hs : i.Service ≠ []) (hv : i.Version ≠ 0)
    (h : c.roundTrip log (Call.Get (s3sPath i.Service i.Version)) = Except.ok resp)
    (hd : d.s3s resp.Body = Except.ok none) :
    ListS3s c d i log
      = ⟨none, none, log ++ [Call.Get (s3sPath i.Service i.Version)], false⟩ := by
  simp [ListS3s, Client.Get, hs, hv, h, hd]

theorem ListS3s_ok_panic (i : ListS3sInput) (resp : Response) (l : List (Option S3))
    (hs : i.Service ≠ []) (hv : i.Version ≠ 0)
    (h : c.roundTrip log (Call.Get (s3sPath i.Service i.Version)) = Except.ok resp)
    (hd : d.s3s resp.Body = Except.ok (some l))
    (hsort : sortStable s3sByName.Less l = none) :
    ListS3s c d i log
      = ⟨none, none, log ++ [Call.Get (s3sPath i.Service i.Version)], true⟩ := by
  simp [ListS3s, Client.Get, hs, hv, h, hd, hsort]

theorem ListS3s_ok (i : ListS3sInput) (resp : Response) (l r : List (Option S3))
    (hs : i.Service ≠ []) (hv : i.Version ≠ 0)
    (h : c.roundTrip log (Call.Get (s3sPath i.Service i.Version)) = Except.ok resp)
    (hd : d.s3s resp.Body = Except.ok (some l))
    (hsort : sortStable s3sByName.Less l = some r) :
    ListS3s c d i log
      = ⟨some r, none, log ++ [Call.Get (s3sPath i.Service i.Version)], false⟩ := by
  simp [ListS3s, Client.Get, hs, hv, h, hd, hsort]

theorem CreateS3_transport_error (i : CreateS3Input) (e : Error)
    (hs : i.Service ≠ []) (hv : i.Version ≠ 0)
    (hk : ¬ (i.ServerSideEncryption = S3ServerSideEncryptionKMS
      ∧ i.ServerSideEncryptionKMSKeyID = []))
    (h : c.roundTrip log (Call.PostForm (s3sPath i.Service i.Version) i) = Except.error e) :
    CreateS3 c d i log
      = ⟨none, some e, log ++ [Call.PostForm (s3sPath i.Service i.Version) i], false⟩ := by
  simp only [CreateS3, Client.PostForm, if_neg hs, if_neg hv, if_neg hk, h]

theorem CreateS3_decode_error (i : CreateS3Input) (resp : Response) (e : Error)
    (hs : i.Service ≠ []) (hv : i.Version ≠ 0)
    (hk : ¬ (i.ServerSideEncryption = S3ServerSideEncryptionKMS
      ∧ i.ServerSideEncryptionKMSKeyID = []))
    (h : c.roundTrip log (Call.PostForm (s3sPath i.Service i.Version) i) = Except.ok resp)
    (hd : d.s3 resp.Body = Except.error e) :
    CreateS3 c d i log
      = ⟨none, some e, log ++ [Call.PostForm (s3sPath i.Service i.Version) i], false⟩ := by
  simp only [CreateS3, Client.PostForm, if_neg hs, if_neg hv, if_neg hk, h, hd]

theorem CreateS3_ok (i : CreateS3Input) (resp : Response) (s : Option S3)
    (hs : i.Service ≠ []) (hv : i.Version ≠ 0)
    (hk : ¬ (i.ServerSideEncryption = S3ServerSideEncryptionKMS
      ∧ i.ServerSideEncryptionKMSKeyID = []))
    (h : c.roundTrip log (Call.PostForm (s3sPath i.Service i.Version) i) = Except.ok resp)
    (hd : d.s3 resp.Body = Except.ok s) :
    CreateS3 c d i log
      = ⟨s, none, log ++ [Call.PostForm (s3sPath i.Service i.Version) i], false⟩ := by
  simp only [CreateS3, Client.PostForm, if_neg hs, if_neg hv, if_neg hk, h, hd]

theorem GetS3_transport_error (i : GetS3Input) (e : Error)
    (hs : i.Service ≠ []) (hv : i.Version ≠ 0) (hn : i.Name ≠ [])
    (h : c.roundTrip log (Call.Get (s3Path i.Service i.Version i.Name)) = Except.error e) :
    GetS3 c d i log
      = ⟨none, some e, log ++ [Call.Get (s3Path i.Service i.Version i.Name)], false⟩ := by
  simp only [GetS3, Client.Get, if_neg hs, if_neg hv, if_neg hn, h]

theorem GetS3_decode_error (i : GetS3Input) (resp : Response) (e : Error)
    (hs : i.Service ≠ []) (hv : i.Version ≠ 0) (hn : i.Name ≠ [])
    (h : c.roundTrip log (Call.Get (s3Path i.Service i.Version i.Name)) = Except.ok resp)
    (hd : d.s3 resp.Body = Except.error e) :
    GetS3 c d i log
      = ⟨none, some e, log ++ [Call.Get (s3Path i.Service i.Version i.Name)], false⟩ := by
  simp only [GetS3, Client.Get, if_neg hs, if_neg hv, if_neg hn, h, hd]

theorem GetS3_ok (i : GetS3Input) (resp : Response) (s : Option S3)
    (hs : i.Service ≠ []) (hv : i.Version ≠ 0) (hn : i.Name ≠ [])
    (h : c.roundTrip log (Call.Get (s3Path i.Service i.Version i.Name)) = Except.ok resp)
    (hd : d.s3 resp.Body = Except.ok s) :
    GetS3 c d i log
      = ⟨s, none, log ++ [Call.Get (s3Path i.Service i.Version i.Name)], false⟩ := by
  simp only [GetS3, Client.Get, if_neg hs, if_neg hv, if_neg hn, h, hd]

theorem UpdateS3_transport_error (i : UpdateS3Input) (e : Error)
    (hs : i.Service ≠ []) (hv : i.Version ≠ 0) (hn : i.Name ≠ [])
    (hk : ¬ (i.ServerSideEncryption = S3ServerSideEncryptionKMS
      ∧ i.ServerSideEncryptionKMSKeyID = []))
    (h : c.roundTrip log (Call.PutForm (s3Path i.Service i.Version i.Name) i)
      = Except.error e) :
    UpdateS3 c d i log
      = ⟨none, some e, log ++ [Call.PutForm (s3Path i.Service i.Version i.Name) i], false⟩ := by
  simp only [UpdateS3, Client.PutForm, if_neg hs, if_neg hv, if_neg hn, if_neg hk, h]

theorem UpdateS3_decode_error (i : UpdateS3Input) (resp : Response) (e : Error)
    (hs : i.Service ≠ []) (hv : i.Version ≠ 0) (hn : i.Name ≠ [])
    (hk : ¬ (i.ServerSideEncryption = S3ServerSideEncryptionKMS
      ∧ i.ServerSideEncryptionKMSKeyID = []))
    (h : c.roundTrip log (Call.PutForm (s3Path i.Service i.Version i.Name) i)
      = Except.ok resp)
    (hd : d.s3 resp.Body = Except.error e) :
    UpdateS3 c d i log
      = ⟨none, some e, log ++ [Call.PutForm (s3Path i.Service i.Version i.Name) i], false⟩ := by
  simp only [UpdateS3, Client.PutForm, if_neg hs, if_neg hv, if_neg hn, if_neg hk, h, hd]

theorem UpdateS3_ok (i : UpdateS3Input) (resp : Response) (s : Option S3)
    (hs : i.Service ≠ []) (hv : i.Version ≠ 0) (hn : i.Name ≠ [])
    (hk : ¬ (i.ServerSideEncryption = S3ServerSideEncryptionKMS
      ∧ i.ServerSideEncryptionKMSKeyID = []))
    (h : c.roundTrip log (Call.PutForm (s3Path i.Service i.Version i.Name) i)
      = Except.ok resp)
    (hd : d.s3 resp.Body = Except.ok s) :
    UpdateS3 c d i log
      = ⟨s, none, log ++ [Call.PutForm (s3Path i.Service i.Version i.Name) i], false⟩ := by
  simp only [UpdateS3, Client.PutForm, if_neg hs, if_neg hv, if_neg hn, if_neg hk, h, hd]

theorem DeleteS3_transport_error (i : DeleteS3Input) (e : Error)
    (hs : i.Service ≠ []) (hv : i.Version ≠ 0) (hn : i.Name ≠ [])
    (h : c.roundTrip log (Call.Delete (s3Path i.Service i.Version i.Name)) = Except.error e) :
    DeleteS3 c d i log
      = ⟨some e, log ++ [Call.Delete (s3Path i.Service i.Version i.Name)], false⟩ := by
  simp only [DeleteS3, Client.Delete, if_neg hs, if_neg hv, if_neg hn, h]

theorem DeleteS3_decode_error (i : DeleteS3Input) (resp : Response) (e : Error)
    (hs : i.Service ≠ []) (hv : i.Version ≠ 0) (hn : i.Name ≠ [])
    (h : c.roundTrip log (Call.Delete (s3Path i.Service i.Version i.Name)) = Except.ok resp)
    (hd : d.status resp.Body = Except.error e) :
    DeleteS3 c d i log
      = ⟨some e, log ++ [Call.Delete (s3Path i.Service i.Version i.Name)], false⟩ := by
  simp only [DeleteS3, Client.Delete, if_neg hs, if_neg hv, if_neg hn, h, hd]

theorem DeleteS3_ok (i : DeleteS3Input) (resp : Response) (r : statusResp)
    (hs : i.Service ≠ []) (hv : i.Version ≠ 0) (hn : i.Name ≠ [])
    (h : c.roundTrip log (Call.Delete (s3Path i.Service i.Version i.Name)) = Except.ok resp)
    (hd : d.status resp.Body = Except.ok (some r)) :
    DeleteS3 c d i log
      = ⟨if r.Ok = true then none else some ErrNotOK,
          log ++ [Call.Delete (s3Path i.Service i.Version i.Name)], false⟩ := by
  simp only [DeleteS3, Client.Delete, if_neg hs, if_neg hv, if_neg hn, h, hd]
  cases r.Ok <;> simp

theorem DeleteS3_ok_panic (i : DeleteS3Input) (resp : Response)
    (hs : i.Service ≠ []) (hv : i.Version ≠ 0) (hn : i.Name ≠ [])
    (h : c.roundTrip log (Call.Delete (s3Path i.Service i.Version i.Name)) = Except.ok resp)
    (hd : d.status resp.Body = Except.ok none) :
    DeleteS3 c d i log
      = ⟨none, log ++ [Call.Delete (s3Path i.Service i.Version i.Name)], true⟩ := by
  simp only [DeleteS3, Client.Delete, if_neg hs, if_neg hv, if_neg hn, h, hd]

theorem ListS3s_calls (i : ListS3sInput) (hs : i.Service ≠ []) (hv : i.Version ≠ 0) :
    (ListS3s c d i log).calls = log ++ [Call.Get (s3sPath i.Service i.Version)] := by
  cases h : c.roundTrip log (Call.Get (s3sPath i.Service i.Version)) with
  | error e => rw [ListS3s_transport_error c d log i e hs hv h]
  | ok resp =>
    cases hd : d.s3s resp.Body with
    | error e => rw [ListS3s_decode_error c d log i resp e hs hv h hd]
    | ok s =>
      cases s with
      | none => rw [ListS3s_ok_nil c d log i resp hs hv h hd]
      | some l =>
        cases hsort : sortStable s3sByName.Less l with
        | none => rw [ListS3s_ok_panic c d log i resp l hs hv h hd hsort]
        | some r => rw [ListS3s_ok c d log i resp l r hs hv h hd hsort]

theorem DeleteS3_calls (i : DeleteS3Input)
    (hs : i.Service ≠ []) (hv : i.Version ≠ 0) (hn : i.Name ≠ []) :
    (DeleteS3 c d i log).calls
      = log ++ [Call.Delete (s3Path i.Service i.Version i.Name)] := by
  cases h : c.roundTrip log (Call.Delete (s3Path i.Service i.Version i.Name)) with
  | error e => rw [DeleteS3_transport_error c d log i e hs hv hn h]
  | ok resp =>
    cases hd : d.status resp.Body with
    | error e => rw [DeleteS3_decode_error c d log i resp e hs hv hn h hd]
    | ok r =>
      cases r with
      | none => rw [DeleteS3_ok_panic c d log i resp hs hv hn h hd]
      | some r => rw [DeleteS3_ok c d log i resp r hs hv hn h hd]

theorem CreateS3_calls (i : CreateS3Input)
    (hs : i.Service ≠ []) (hv : i.Version ≠ 0)
    (hk : ¬ (i.ServerSideEncryption = S3ServerSideEncryptionKMS
      ∧ i.ServerSideEncryptionKMSKeyID = [])) :
    (CreateS3 c d i log).calls = log ++ [Call.PostForm (s3sPath i.Service i.Version) i] := by
  cases h : c.roundTrip log (Call.PostForm (s3sPath i.Service i.Version) i) with
  | error e => rw [CreateS3_transport_error c d log i e hs hv hk h]
  | ok resp =>
    cases hd : d.s3 resp.Body with
    | error e => rw [CreateS3_decode_error c d log i resp e hs hv hk h hd]
    | ok s => rw [CreateS3_ok c d log i resp s hs hv hk h hd]

theorem UpdateS3_calls (i : UpdateS3Input)
    (hs : i.Service ≠ []) (hv : i.Version ≠ 0) (hn : i.Name ≠ [])
    (hk : ¬ (i.ServerSideEncryption = S3ServerSideEncryptionKMS
      ∧ i.ServerSideEncryptionKMSKeyID = [])) :
    (UpdateS3 c d i log).calls
      = log ++ [Call.PutForm (s3Path i.Service i.Version i.Name) i] := by
  cases h : c.roundTrip log (Call.PutForm (s3Path i.Service i.Version i.Name) i) with
  | error e => rw [UpdateS3_transport_error c d log i e hs hv hn hk h]
  | ok resp =>
    cases hd : d.s3 resp.Body with
    | error e => rw [UpdateS3_decode_error c d log i resp e hs hv hn hk h hd]
    | ok s => rw [UpdateS3_ok c d log i resp s hs hv hn hk h hd]

end Steps

/-! ## Local validation -/

/-- C1: in each of the five operations an empty Service gives ErrMissingService
whatever the other fields are, and a non-empty Service with Version 0 gives
ErrMissingVersion; in both cases the result is nil and the log of client calls
is left as it was, so no request is issued. -/
theorem missing_service_or_version_rejected (c : Client) (d : Decoder) (log : List Call) :
    (∀ i : ListS3sInput,
      (i.Service = [] → ListS3s c d i log = ⟨none, some ErrMissingService, log, false⟩) ∧
      (i.Service ≠ [] → i.Version = 0 →
        ListS3s c d i log = ⟨none, some ErrMissingVersion, log, false⟩)) ∧
    (∀ i : CreateS3Input,
      (i.Service = [] → CreateS3 c d i log = ⟨none, some ErrMissingService, log, false⟩) ∧
      (i.Service ≠ [] → i.Version = 0 →
        CreateS3 c d i log = ⟨none, some ErrMissingVersion, log, false⟩)) ∧
    (∀ i : GetS3Input,
      (i.Service = [] → GetS3 c d i log = ⟨none, some ErrMissingService, log, false⟩) ∧
      (i.Service ≠ [] → i.Version = 0 →
        GetS3 c d i log = ⟨none, some ErrMissingVersion, log, false⟩)) ∧
    (∀ i : UpdateS3Input,
      (i.Service = [] → UpdateS3 c d i log = ⟨none, some ErrMissingService, log, false⟩) ∧
      (i.Service ≠ [] → i.Version = 0 →
        UpdateS3 c d i log = ⟨none, some ErrMissingVersion, log, false⟩)) ∧
    (∀ i : DeleteS3Input,
      (i.Service = [] → DeleteS3 c d i log = ⟨some ErrMissingService, log, false⟩) ∧
      (i.Service ≠ [] → i.Version = 0 →
        DeleteS3 c d i log = ⟨some ErrMissingVersion, log, false⟩)) := by
  refine ⟨fun i => ⟨fun hs => ?_, fun hs hv => ?_⟩, fun i => ⟨fun hs => ?_, fun hs hv => ?_⟩,
    fun i => ⟨fun hs => ?_, fun hs hv => ?_⟩, fun i => ⟨fun hs => ?_, fun hs hv => ?_⟩,
    fun i => ⟨fun hs => ?_, fun hs hv => ?_⟩⟩
  · simp only [ListS3s, if_pos hs]
  · simp only [ListS3s, if_neg hs, if_pos hv]
  · simp only [CreateS3, if_pos hs]
  · simp only [CreateS3, if_neg hs, if_pos hv]
  · simp only [GetS3, if_pos hs]
  · simp only [GetS3, if_neg hs, if_pos hv]
  · simp only [UpdateS3, if_pos hs]
  · simp only [UpdateS3, if_neg hs, if_pos hv]
  · simp only [DeleteS3, if_pos hs]
  · simp only [DeleteS3, if_neg hs, if_pos hv]

theorem missing_service_or_version_rejected_witness :
    ListS3s okClient badDecoder { Service := [], Version := 7 } []
      = ⟨none, some ErrMissingService, [], false⟩ ∧
    UpdateS3 okClient badDecoder { Service := [], Version := 0, Name := [] } []
      = ⟨none, some ErrMissingService, [], false⟩ ∧
    DeleteS3 okClient badDecoder { Service := ascii "svc", Version := 0, Name := ascii "n" } []
      = ⟨some ErrMissingVersion, [], false⟩ :=
  ⟨((missing_service_or_version_rejected okClient badDecoder []).1 _).1 rfl,
   ((missing_service_or_version_rejected okClient badDecoder []).2.2.2.1 _).1 rfl,
   ((missing_service_or_version_rejected okClient badDecoder []).2.2.2.2 _).2
      (by decide) rfl⟩

/-- C3: in GetS3, UpdateS3 and DeleteS3, with a non-empty Service and a
non-zero Version, an empty Name gives ErrMissingName and the log of client
calls is left as it was; in UpdateS3 this is so whatever the encryption fields
are, "aws:kms" with an empty key id included. -/
theorem missing_name_rejected (c : Client) (d : Decoder) (log : List Call) :
    (∀ i : GetS3Input, i.Service ≠ [] → i.Version ≠ 0 → i.Name = [] →
      GetS3 c d i log = ⟨none, some ErrMissingName, log, false⟩) ∧
    (∀ i : UpdateS3Input, i.Service ≠ [] → i.Version ≠ 0 → i.Name = [] →
      UpdateS3 c d i log = ⟨none, some ErrMissingName, log, false⟩) ∧
    (∀ i : UpdateS3Input, i.Service ≠ [] → i.Version ≠ 0 → i.Name = [] →
      i.ServerSideEncryption = ascii "aws:kms" → i.ServerSideEncryptionKMSKeyID = [] →
      UpdateS3 c d i log = ⟨none, some ErrMissingName, log, false⟩) ∧
    (∀ i : DeleteS3Input, i.Service ≠ [] → i.Version ≠ 0 → i.Name = [] →
      DeleteS3 c d i log = ⟨some ErrMissingName, log, false⟩) := by
  refine ⟨fun i hs hv hn => ?_, fun i hs hv hn => ?_, fun i hs hv hn _ _ => ?_,
    fun i hs hv hn => ?_⟩
  · simp only [GetS3, if_neg hs, if_neg hv, if_pos hn]
  · simp only [UpdateS3, if_neg hs, if_neg hv, if_pos hn]
  · simp only [UpdateS3, if_neg hs, if_neg hv, if_pos hn]
  · simp only [DeleteS3, if_neg hs, if_neg hv, if_pos hn]

theorem missing_name_rejected_witness :
    GetS3 okClient badDecoder { Service := ascii "svc", Version := 2, Name := [] } []
      = ⟨none, some ErrMissingName, [], false⟩ ∧
    UpdateS3 okClient badDecoder
      { Service := ascii "svc", Version := 2, Name := [],
        ServerSideEncryption := ascii "aws:kms", ServerSideEncryptionKMSKeyID := [] } []
      = ⟨none, some ErrMissingName, [], false⟩ ∧
    DeleteS3 okClient badDecoder { Service := ascii "svc", Version := -1, Name := [] } []
      = ⟨some ErrMissingName, [], false⟩ :=
  ⟨(missing_name_rejected okClient badDecoder []).1 _ (by decide) (by decide) rfl,
   (missing_name_rejected okClient badDecoder []).2.2.1 _ (by decide) (by decide) rfl rfl rfl,
   (missing_name_rejected okClient badDecoder []).2.2.2 _ (by decide) (by decide) rfl⟩

/-- C4: in CreateS3 (Service non-empty, Version non-zero) and in UpdateS3 (Name
non-empty as well), the operation returns ErrMissingKMSKeyID with the log of
client calls left as it was exactly when ServerSideEncryption is "aws:kms" and
the key id is empty; for any other encryption value ("AES256" and the empty
string included) or a non-empty key id, exactly one call is added to the log. -/
theorem kms_key_required (c : Client) (d : Decoder) (log : List Call) :
    (∀ i : CreateS3Input, i.Service ≠ [] → i.Version ≠ 0 →
      (((CreateS3 c d i log).err = some ErrMissingKMSKeyID ∧ (CreateS3 c d i log).calls = log)
        ↔ (i.ServerSideEncryption = ascii "aws:kms" ∧ i.ServerSideEncryptionKMSKeyID = [])) ∧
      (i.ServerSideEncryption = ascii "aws:kms" ∧ i.ServerSideEncryptionKMSKeyID = [] →
        CreateS3 c d i log = ⟨none, some ErrMissingKMSKeyID, log, false⟩) ∧
      (¬ (i.ServerSideEncryption = ascii "aws:kms" ∧ i.ServerSideEncryptionKMSKeyID = []) →
        (CreateS3 c d i log).calls
          = log ++ [Call.PostForm (s3sPath i.Service i.Version) i])) ∧
    (∀ i : UpdateS3Input, i.Service ≠ [] → i.Version ≠ 0 → i.Name ≠ [] →
      (((UpdateS3 c d i log).err = some ErrMissingKMSKeyID ∧ (UpdateS3 c d i log).calls = log)
        ↔ (i.ServerSideEncryption = ascii "aws:kms" ∧ i.ServerSideEncryptionKMSKeyID = [])) ∧
      (i.ServerSideEncryption = ascii "aws:kms" ∧ i.ServerSideEncryptionKMSKeyID = [] →
        UpdateS3 c d i log = ⟨none, some ErrMissingKMSKeyID, log, false⟩) ∧
      (¬ (i.ServerSideEncryption = ascii "aws:kms" ∧ i.ServerSideEncryptionKMSKeyID = []) →
        (UpdateS3 c d i log).calls
          = log ++ [Call.PutForm (s3Path i.Service i.Version i.Name) i])) := by
  constructor
  · intro i hs hv
    have hyes : i.ServerSideEncryption = ascii "aws:kms" ∧ i.ServerSideEncryptionKMSKeyID = [] →
        CreateS3 c d i log = ⟨none, some ErrMissingKMSKeyID, log, false⟩ := by
      intro hk
      have hk2 : i.ServerSideEncryption = S3ServerSideEncryptionKMS
          ∧ i.ServerSideEncryptionKMSKeyID = [] := hk
      simp only [CreateS3, if_neg hs, if_neg hv, if_pos hk2]
    have hno : ¬ (i.ServerSideEncryption = ascii "aws:kms"
          ∧ i.ServerSideEncryptionKMSKeyID = []) →
        (CreateS3 c d i log).calls
          = log ++ [Call.PostForm (s3sPath i.Service i.Version) i] := by
      intro hk
      have hk2 : ¬ (i.ServerSideEncryption = S3ServerSideEncryptionKMS
          ∧ i.ServerSideEncryptionKMSKeyID = []) := hk
      cases h : c.roundTrip log (Call.PostForm (s3sPath i.Service i.Version) i) with
      | error e => rw [CreateS3_transport_error c d log i e hs hv hk2 h]
      | ok resp =>
        cases hd : d.s3 resp.Body with
        | error e => rw [CreateS3_decode_error c d log i resp e hs hv hk2 h hd]
        | ok s => rw [CreateS3_ok c d log i resp s hs hv hk2 h hd]
    refine ⟨⟨fun h => ?_, fun hk => ?_⟩, hyes, hno⟩
    · by_contra hk
      have := hno hk
      rw [h.2] at this
      simp at this
    · rw [hyes hk]
      exact ⟨rfl, rfl⟩
  · intro i hs hv hn
    have hyes : i.ServerSideEncryption = ascii "aws:kms" ∧ i.ServerSideEncryptionKMSKeyID = [] →
        UpdateS3 c d i log = ⟨none, some ErrMissingKMSKeyID, log, false⟩ := by
      intro hk
      have hk2 : i.ServerSideEncryption = S3ServerSideEncryptionKMS
          ∧ i.ServerSideEncryptionKMSKeyID = [] := hk
      simp only [UpdateS3, if_neg hs, if_neg hv, if_neg hn, if_pos hk2]
    have hno : ¬ (i.ServerSideEncryption = ascii "aws:kms"
          ∧ i.ServerSideEncryptionKMSKeyID = []) →
        (UpdateS3 c d i log).calls
          = log ++ [Call.PutForm (s3Path i.Service i.Version i.Name) i] := by
      intro hk
      have hk2 : ¬ (i.ServerSideEncryption = S3ServerSideEncryptionKMS
          ∧ i.ServerSideEncryptionKMSKeyID = []) := hk
      cases h : c.roundTrip log (Call.PutForm (s3Path i.Service i.Version i.Name) i) with
      | error e => rw [UpdateS3_transport_error c d log i e hs hv hn hk2 h]
      | ok resp =>
        cases hd : d.s3 resp.Body with
        | error e => rw [UpdateS3_decode_error c d log i resp e hs hv hn hk2 h hd]
        | ok s => rw [UpdateS3_ok c d log i resp s hs hv hn hk2 h hd]
    refine ⟨⟨fun h => ?_, fun hk => ?_⟩, hyes, hno⟩
    · by_contra hk
      have := hno hk
      rw [h.2] at this
      simp at this
    · rw [hyes hk]
      exact ⟨rfl, rfl⟩

theorem kms_key_required_witness :
    CreateS3 okClient badDecoder
      { Service := ascii "svc", Version := 3, Name := ascii "logs",
        ServerSideEncryption := ascii "aws:kms" } []
      = ⟨none, some ErrMissingKMSKeyID, [], false⟩ ∧
    (UpdateS3 okClient badDecoder
      { Service := ascii "svc", Version := 3, Name := ascii "logs",
        ServerSideEncryption := ascii "AES256" } []).calls
      = [] ++ [Call.PutForm (s3Path (ascii "svc") 3 (ascii "logs"))
          { Service := ascii "svc", Version := 3, Name := ascii "logs",
            ServerSideEncryption := ascii "AES256" }] :=
  ⟨((kms_key_required okClient badDecoder []).1 _ (by decide) (by decide)).2.1 ⟨rfl, rfl⟩,
   ((kms_key_required okClient badDecoder []).2 _ (by decide) (by decide) (by decide)).2.2
      (by decide)⟩

/-- C6, counterexample: a DeleteS3Input with Service "svc", Version 3 and Name
"logs", a request that succeeds and a decoding that succeeds leaving the
status pointer nil (a body `null`): DeleteS3 issues the DELETE and then panics
in `r.Ok()`; it returns neither ErrNotOK nor nil. -/
theorem delete_nil_status_panics :
    okClient.roundTrip [] (Call.Delete (s3Path (ascii "svc") 3 (ascii "logs")))
      = Except.ok ⟨[]⟩ ∧
    (constDecoder none none none).status [] = Except.ok none ∧
    DeleteS3 okClient (constDecoder none none none)
        { Service := ascii "svc", Version := 3, Name := ascii "logs" } []
      = ⟨none, [Call.Delete (ascii "/service/svc/version/3/logging/s3/logs")], true⟩ :=
  ⟨rfl, rfl, by decide⟩

/-- C6, amended: for a DeleteS3Input with non-empty Service, non-zero Version
and non-empty Name whose request succeeds and whose response decodes to a
status document (the decoded pointer is not nil), DeleteS3 returns, without
panicking: it returns ErrNotOK when the status is not ok, and returns no error
exactly when the status is ok. -/
theorem delete_status_decides (c : Client) (d : Decoder) (log : List Call)
    (i : DeleteS3Input) (resp : Response) (r : statusResp)
    (hs : i.Service ≠ []) (hv : i.Version ≠ 0) (hn : i.Name ≠ [])
    (h : c.roundTrip log (Call.Delete (s3Path i.Service i.Version i.Name)) = Except.ok resp)
    (hd : d.status resp.Body = Except.ok (some r)) :
    (DeleteS3 c d i log).panicked = false ∧
    (r.Ok = false → (DeleteS3 c d i log).err = some ErrNotOK) ∧
    ((DeleteS3 c d i log).err = none ↔ r.Ok = true) := by
  rw [DeleteS3_ok c d log i resp r hs hv hn h hd]
  cases r.Ok <;> simp

theorem delete_status_decides_witness :
    (DeleteS3 okClient
      (constDecoder none none (some ⟨ascii "error", ascii "no such endpoint"⟩))
      { Service := ascii "svc", Version := 3, Name := ascii "logs" } []).err
      = some ErrNotOK ∧
    (DeleteS3 okClient (constDecoder none none (some ⟨ascii "ok", []⟩))
      { Service := ascii "svc", Version := 3, Name := ascii "logs" } []).err = none ∧
    (DeleteS3 okClient (constDecoder none none (some ⟨ascii "ok", []⟩))
      { Service := ascii "svc", Version := 3, Name := ascii "logs" } []).panicked = false :=
  ⟨(delete_status_decides okClient
      (constDecoder none none (some ⟨ascii "error", ascii "no such endpoint"⟩))
      [] { Service := ascii "svc", Version := 3, Name := ascii "logs" } ⟨[]⟩
      ⟨ascii "error", ascii "no such endpoint"⟩
      (by decide) (by decide) (by decide) rfl rfl).2.1 (by decide),
   (delete_status_decides okClient (constDecoder none none (some ⟨ascii "ok", []⟩))
      [] { Service := ascii "svc", Version := 3, Name := ascii "logs" } ⟨[]⟩
      ⟨ascii "ok", []⟩
      (by decide) (by decide) (by decide) rfl rfl).2.2.2 (by decide),
   (delete_status_decides okClient (constDecoder none none (some ⟨ascii "ok", []⟩))
      [] { Service := ascii "svc", Version := 3, Name := ascii "logs" } ⟨[]⟩
      ⟨ascii "ok", []⟩
      (by decide) (by decide) (by decide) rfl rfl).1⟩

/-! ## Errors of the transport and of the decoder -/

/-- C7: in each of the five operations, for an input that passes local
validation, an error of the client call is returned as it is, and otherwise an
error of the decoder is returned as it is; in both cases the result is nil and
the log holds the one call and nothing more. Whatever the input, the log grows
by at most that one call, and an error returned is ErrMissingService,
ErrMissingVersion, ErrMissingName (not in ListS3s and CreateS3),
ErrMissingKMSKeyID (CreateS3 and UpdateS3 only), ErrNotOK (DeleteS3 only), or
the error the client call or the decoder returned. -/
theorem errors_passed_through (c : Client) (d : Decoder) (log : List Call) :
    (∀ i : ListS3sInput,
      (i.Service ≠ [] → i.Version ≠ 0 →
        (∀ e, c.roundTrip log (Call.Get (s3sPath i.Service i.Version)) = Except.error e →
          ListS3s c d i log
            = ⟨none, some e, log ++ [Call.Get (s3sPath i.Service i.Version)], false⟩) ∧
        (∀ resp e, c.roundTrip log (Call.Get (s3sPath i.Service i.Version)) = Except.ok resp →
          d.s3s resp.Body = Except.error e →
          ListS3s c d i log
            = ⟨none, some e, log ++ [Call.Get (s3sPath i.Service i.Version)], false⟩)) ∧
      (∀ e, (ListS3s c d i log).err = some e →
        e = ErrMissingService ∨ e = ErrMissingVersion ∨
        c.roundTrip log (Call.Get (s3sPath i.Service i.Version)) = Except.error e ∨
        ∃ resp, c.roundTrip log (Call.Get (s3sPath i.Service i.Version)) = Except.ok resp ∧
          d.s3s resp.Body = Except.error e) ∧
      ((ListS3s c d i log).calls = log ∨
        (ListS3s c d i log).calls = log ++ [Call.Get (s3sPath i.Service i.Version)])) ∧
    (∀ i : CreateS3Input,
      (i.Service ≠ [] → i.Version ≠ 0 →
        ¬ (i.ServerSideEncryption = ascii "aws:kms" ∧ i.ServerSideEncryptionKMSKeyID = []) →
        (∀ e, c.roundTrip log (Call.PostForm (s3sPath i.Service i.Version) i)
            = Except.error e →
          CreateS3 c d i log
            = ⟨none, some e, log ++ [Call.PostForm (s3sPath i.Service i.Version) i], false⟩) ∧
        (∀ resp e, c.roundTrip log (Call.PostForm (s3sPath i.Service i.Version) i)
            = Except.ok resp →
          d.s3 resp.Body = Except.error e →
          CreateS3 c d i log
            = ⟨none, some e, log ++ [Call.PostForm (s3sPath i.Service i.Version) i], false⟩)) ∧
      (∀ e, (CreateS3 c d i log).err = some e →
        e = ErrMissingService ∨ e = ErrMissingVersion ∨ e = ErrMissingKMSKeyID ∨
        c.roundTrip log (Call.PostForm (s3sPath i.Service i.Version) i) = Except.error e ∨
        ∃ resp, c.roundTrip log (Call.PostForm (s3sPath i.Service i.Version) i)
            = Except.ok resp ∧
          d.s3 resp.Body = Except.error e) ∧
      ((CreateS3 c d i log).calls = log ∨
        (CreateS3 c d i log).calls
          = log ++ [Call.PostForm (s3sPath i.Service i.Version) i])) ∧
    (∀ i : GetS3Input,
      (i.Service ≠ [] → i.Version ≠ 0 → i.Name ≠ [] →
        (∀ e, c.roundTrip log (Call.Get (s3Path i.Service i.Version i.Name))
            = Except.error e →
          GetS3 c d i log
            = ⟨none, some e, log ++ [Call.Get (s3Path i.Service i.Version i.Name)], false⟩) ∧
        (∀ resp e, c.roundTrip log (Call.Get (s3Path i.Service i.Version i.Name))
            = Except.ok resp →
          d.s3 resp.Body = Except.error e →
          GetS3 c d i log
            = ⟨none, some e, log ++ [Call.Get (s3Path i.Service i.Version i.Name)], false⟩)) ∧
      (∀ e, (GetS3 c d i log).err = some e →
        e = ErrMissingService ∨ e = ErrMissingVersion ∨ e = ErrMissingName ∨
        c.roundTrip log (Call.Get (s3Path i.Service i.Version i.Name)) = Except.error e ∨
        ∃ resp, c.roundTrip log (Call.Get (s3Path i.Service i.Version i.Name))
            = Except.ok resp ∧
          d.s3 resp.Body = Except.error e) ∧
      ((GetS3 c d i log).calls = log ∨
        (GetS3 c d i log).calls
          = log ++ [Call.Get (s3Path i.Service i.Version i.Name)])) ∧
    (∀ i : UpdateS3Input,
      (i.Service ≠ [] → i.Version ≠ 0 → i.Name ≠ [] →
        ¬ (i.ServerSideEncryption = ascii "aws:kms" ∧ i.ServerSideEncryptionKMSKeyID = []) →
        (∀ e, c.roundTrip log (Call.PutForm (s3Path i.Service i.Version i.Name) i)
            = Except.error e →
          UpdateS3 c d i log
            = ⟨none, some e, log ++ [Call.PutForm (s3Path i.Service i.Version i.Name) i], false⟩) ∧
        (∀ resp e, c.roundTrip log (Call.PutForm (s3Path i.Service i.Version i.Name) i)
            = Except.ok resp →
          d.s3 resp.Body = Except.error e →
          UpdateS3 c d i log
            = ⟨none, some e, log ++ [Call.PutForm (s3Path i.Service i.Version i.Name) i], false⟩)) ∧
      (∀ e, (UpdateS3 c d i log).err = some e →
        e = ErrMissingService ∨ e = ErrMissingVersion ∨ e = ErrMissingName ∨
        e = ErrMissingKMSKeyID ∨
        c.roundTrip log (Call.PutForm (s3Path i.Service i.Version i.Name) i)
          = Except.error e ∨
        ∃ resp, c.roundTrip log (Call.PutForm (s3Path i.Service i.Version i.Name) i)
            = Except.ok resp ∧
          d.s3 resp.Body = Except.error e) ∧
      ((UpdateS3 c d i log).calls = log ∨
        (UpdateS3 c d i log).calls
          = log ++ [Call.PutForm (s3Path i.Service i.Version i.Name) i])) ∧
    (∀ i : DeleteS3Input,
      (i.Service ≠ [] → i.Version ≠ 0 → i.Name ≠ [] →
        (∀ e, c.roundTrip log (Call.Delete (s3Path i.Service i.Version i.Name))
            = Except.error e →
          DeleteS3 c d i log
            = ⟨some e, log ++ [Call.Delete (s3Path i.Service i.Version i.Name)], false⟩) ∧
        (∀ resp e, c.roundTrip log (Call.Delete (s3Path i.Service i.Version i.Name))
            = Except.ok resp →
          d.status resp.Body = Except.error e →
          DeleteS3 c d i log
            = ⟨some e, log ++ [Call.Delete (s3Path i.Service i.Version i.Name)], false⟩)) ∧
      (∀ e, (DeleteS3 c d i log).err = some e →
        e = ErrMissingService ∨ e = ErrMissingVersion ∨ e = ErrMissingName ∨ e = ErrNotOK ∨
        c.roundTrip log (Call.Delete (s3Path i.Service i.Version i.Name)) = Except.error e ∨
        ∃ resp, c.roundTrip log (Call.Delete (s3Path i.Service i.Version i.Name))
            = Except.ok resp ∧
          d.status resp.Body = Except.error e) ∧
      ((DeleteS3 c d i log).calls = log ∨
        (DeleteS3 c d i log).calls
          = log ++ [Call.Delete (s3Path i.Service i.Version i.Name)])) := by
  refine ⟨fun i => ⟨?_, ?_⟩, fun i => ⟨?_, ?_⟩, fun i => ⟨?_, ?_⟩, fun i => ⟨?_, ?_⟩,
    fun i => ⟨?_, ?_⟩⟩
  · exact fun hs hv => ⟨fun e h => ListS3s_transport_error c d log i e hs hv h,
      fun resp e h hd => ListS3s_decode_error c d log i resp e hs hv h hd⟩
  · by_cases hs : i.Service = []
    · simp [ListS3s, hs]
    by_cases hv : i.Version = 0
    · simp [ListS3s, hs, hv]
    cases h : c.roundTrip log (Call.Get (s3sPath i.Service i.Version)) with
    | error e => simp [ListS3s_transport_error c d log i e hs hv h]
    | ok resp =>
      cases hd : d.s3s resp.Body with
      | error e => simp [ListS3s_decode_error c d log i resp e hs hv h hd, hd]
      | ok s =>
        cases s with
        | none => simp [ListS3s_ok_nil c d log i resp hs hv h hd]
        | some l =>
          cases hsort : sortStable s3sByName.Less l with
          | none => simp [ListS3s_ok_panic c d log i resp l hs hv h hd hsort]
          | some r => simp [ListS3s_ok c d log i resp l r hs hv h hd hsort]
  · exact fun hs hv hk => ⟨fun e h => CreateS3_transport_error c d log i e hs hv hk h,
      fun resp e h hd => CreateS3_decode_error c d log i resp e hs hv hk h hd⟩
  · by_cases hs : i.Service = []
    · simp [CreateS3, hs]
    by_cases hv : i.Version = 0
    · simp [CreateS3, hs, hv]
    by_cases hk : i.ServerSideEncryption = S3ServerSideEncryptionKMS
        ∧ i.ServerSideEncryptionKMSKeyID = []
    · simp only [CreateS3, if_neg hs, if_neg hv, if_pos hk]; simp
    cases h : c.roundTrip log (Call.PostForm (s3sPath i.Service i.Version) i) with
    | error e => simp [CreateS3_transport_error c d log i e hs hv hk h]
    | ok resp =>
      cases hd : d.s3 resp.Body with
      | error e => simp [CreateS3_decode_error c d log i resp e hs hv hk h hd, hd]
      | ok s => simp [CreateS3_ok c d log i resp s hs hv hk h hd]
  · exact fun hs hv hn => ⟨fun e h => GetS3_transport_error c d log i e hs hv hn h,
      fun resp e h hd => GetS3_decode_error c d log i resp e hs hv hn h hd⟩
  · by_cases hs : i.Service = []
    · simp [GetS3, hs]
    by_cases hv : i.Version = 0
    · simp [GetS3, hs, hv]
    by_cases hn : i.Name = []
    · simp [GetS3, hs, hv, hn]
    cases h : c.roundTrip log (Call.Get (s3Path i.Service i.Version i.Name)) with
    | error e => simp [GetS3_transport_error c d log i e hs hv hn h]
    | ok resp =>
      cases hd : d.s3 resp.Body with
      | error e => simp [GetS3_decode_error c d log i resp e hs hv hn h hd, hd]
      | ok s => simp [GetS3_ok c d log i resp s hs hv hn h hd]
  · exact fun hs hv hn hk => ⟨fun e h => UpdateS3_transport_error c d log i e hs hv hn hk h,
      fun resp e h hd => UpdateS3_decode_error c d log i resp e hs hv hn hk h hd⟩
  · by_cases hs : i.Service = []
    · simp [UpdateS3, hs]
    by_cases hv : i.Version = 0
    · simp [UpdateS3, hs, hv]
    by_cases hn : i.Name = []
    · simp [UpdateS3, hs, hv, hn]
    by_cases hk : i.ServerSideEncryption = S3ServerSideEncryptionKMS
        ∧ i.ServerSideEncryptionKMSKeyID = []
    · simp only [UpdateS3, if_neg hs, if_neg hv, if_neg hn, if_pos hk]; simp
    cases h : c.roundTrip log (Call.PutForm (s3Path i.Service i.Version i.Name) i) with
    | error e => simp [UpdateS3_transport_error c d log i e hs hv hn hk h]
    | ok resp =>
      cases hd : d.s3 resp.Body with
      | error e => simp [UpdateS3_decode_error c d log i resp e hs hv hn hk h hd, hd]
      | ok s => simp [UpdateS3_ok c d log i resp s hs hv hn hk h hd]
  · exact fun hs hv hn => ⟨fun e h => DeleteS3_transport_error c d log i e hs hv hn h,
      fun resp e h hd => DeleteS3_decode_error c d log i resp e hs hv hn h hd⟩
  · by_cases hs : i.Service = []
    · simp [DeleteS3, hs]
    by_cases hv : i.Version = 0
    · simp [DeleteS3, hs, hv]
    by_cases hn : i.Name = []
    · simp [DeleteS3, hs, hv, hn]
    cases h : c.roundTrip log (Call.Delete (s3Path i.Service i.Version i.Name)) with
    | error e => simp [DeleteS3_transport_error c d log i e hs hv hn h]
    | ok resp =>
      cases hd : d.status resp.Body with
      | error e => simp [DeleteS3_decode_error c d log i resp e hs hv hn h hd, hd]
      | ok r =>
        cases r with
        | none => simp [DeleteS3_ok_panic c d log i resp hs hv hn h hd]
        | some r =>
          rw [DeleteS3_ok c d log i resp r hs hv hn h hd]
          cases r.Ok <;> simp

theorem errors_passed_through_witness :
    ListS3s downClient badDecoder { Service := ascii "svc", Version := 3 } []
      = ⟨none, some (Error.other (ascii "connection refused")),
          [] ++ [Call.Get (s3sPath (ascii "svc") 3)], false⟩ ∧
    UpdateS3 okClient badDecoder
      { Service := ascii "svc", Version := 3, Name := ascii "logs" } []
      = ⟨none, some (Error.other (ascii "EOF")),
          [] ++ [Call.PutForm (s3Path (ascii "svc") 3 (ascii "logs"))
            { Service := ascii "svc", Version := 3, Name := ascii "logs" }], false⟩ :=
  ⟨(((errors_passed_through downClient badDecoder []).1
      { Service := ascii "svc", Version := 3 }).1 (by decide) (by decide)).1 _ rfl,
   (((errors_passed_through okClient badDecoder []).2.2.2.1
      { Service := ascii "svc", Version := 3, Name := ascii "logs" }).1
      (by decide) (by decide) (by decide) (by decide)).2 ⟨[]⟩ _ rfl rfl⟩

/-! ## Requests -/

/-- C8: for an input that passes local validation the one call logged is:
for ListS3s, Get and for CreateS3, PostForm on
"/service/" + Service + "/version/" + decimal(Version) + "/logging/s3"; for
GetS3, Get, for UpdateS3, PutForm and for DeleteS3, Delete on that path
followed by "/" and url.PathEscape(Name). The escaped name holds no "/" and is
not empty, so it is one path segment. -/
theorem request_method_and_path (c : Client) (d : Decoder) (log : List Call) :
    (∀ i : ListS3sInput, i.Service ≠ [] → i.Version ≠ 0 →
      (ListS3s c d i log).calls = log ++ [Call.Get
        (ascii "/service/" ++ i.Service ++ ascii "/version/" ++ fmtInt i.Version
          ++ ascii "/logging/s3")]) ∧
    (∀ i : CreateS3Input, i.Service ≠ [] → i.Version ≠ 0 →
      ¬ (i.ServerSideEncryption = ascii "aws:kms" ∧ i.ServerSideEncryptionKMSKeyID = []) →
      (CreateS3 c d i log).calls = log ++ [Call.PostForm
        (ascii "/service/" ++ i.Service ++ ascii "/version/" ++ fmtInt i.Version
          ++ ascii "/logging/s3") i]) ∧
    (∀ i : GetS3Input, i.Service ≠ [] → i.Version ≠ 0 → i.Name ≠ [] →
      (GetS3 c d i log).calls = log ++ [Call.Get
        (ascii "/service/" ++ i.Service ++ ascii "/version/" ++ fmtInt i.Version
          ++ ascii "/logging/s3" ++ ascii "/" ++ PathEscape i.Name)]) ∧
    (∀ i : UpdateS3Input, i.Service ≠ [] → i.Version ≠ 0 → i.Name ≠ [] →
      ¬ (i.ServerSideEncryption = ascii "aws:kms" ∧ i.ServerSideEncryptionKMSKeyID = []) →
      (UpdateS3 c d i log).calls = log ++ [Call.PutForm
        (ascii "/service/" ++ i.Service ++ ascii "/version/" ++ fmtInt i.Version
          ++ ascii "/logging/s3" ++ ascii "/" ++ PathEscape i.Name) i]) ∧
    (∀ i : DeleteS3Input, i.Service ≠ [] → i.Version ≠ 0 → i.Name ≠ [] →
      (DeleteS3 c d i log).calls = log ++ [Call.Delete
        (ascii "/service/" ++ i.Service ++ ascii "/version/" ++ fmtInt i.Version
          ++ ascii "/logging/s3" ++ ascii "/" ++ PathEscape i.Name)]) ∧
    (∀ name : GoString, (∀ b ∈ ascii "/", b ∉ PathEscape name) ∧
      (name ≠ [] → PathEscape name ≠ [])) := by
  refine ⟨fun i hs hv => ?_, fun i hs hv hk => ?_, fun i hs hv hn => ?_,
    fun i hs hv hn hk => ?_, fun i hs hv hn => ?_, fun name => ⟨?_, PathEscape_ne_nil name⟩⟩
  · rw [← s3sPath]
    exact ListS3s_calls c d log i hs hv
  · rw [← s3sPath]
    cases h : c.roundTrip log (Call.PostForm (s3sPath i.Service i.Version) i) with
    | error e => rw [CreateS3_transport_error c d log i e hs hv hk h]
    | ok resp =>
      cases hd : d.s3 resp.Body with
      | error e => rw [CreateS3_decode_error c d log i resp e hs hv hk h hd]
      | ok s => rw [CreateS3_ok c d log i resp s hs hv hk h hd]
  · rw [← s3sPath, ← s3Path_eq]
    cases h : c.roundTrip log (Call.Get (s3Path i.Service i.Version i.Name)) with
    | error e => rw [GetS3_transport_error c d log i e hs hv hn h]
    | ok resp =>
      cases hd : d.s3 resp.Body with
      | error e => rw [GetS3_decode_error c d log i resp e hs hv hn h hd]
      | ok s => rw [GetS3_ok c d log i resp s hs hv hn h hd]
  · rw [← s3sPath, ← s3Path_eq]
    cases h : c.roundTrip log (Call.PutForm (s3Path i.Service i.Version i.Name) i) with
    | error e => rw [UpdateS3_transport_error c d log i e hs hv hn hk h]
    | ok resp =>
      cases hd : d.s3 resp.Body with
      | error e => rw [UpdateS3_decode_error c d log i resp e hs hv hn hk h hd]
      | ok s => rw [UpdateS3_ok c d log i resp s hs hv hn hk h hd]
  · rw [← s3sPath, ← s3Path_eq]
    exact DeleteS3_calls c d log i hs hv hn
  · intro b hb
    have hb2 : b = slash := by
      have h1 : ascii "/" = [slash] := by decide
      rw [h1] at hb
      simpa using hb
    rw [hb2]
    exact slash_not_mem_PathEscape name

theorem request_method_and_path_witness :
    (GetS3 okClient badDecoder
      { Service := ascii "SU1Z0isxPaozGVKXdv0eY", Version := 2, Name := ascii "a/b c" } []).calls
      = [] ++ [Call.Get (ascii "/service/" ++ ascii "SU1Z0isxPaozGVKXdv0eY" ++ ascii "/version/"
          ++ fmtInt 2 ++ ascii "/logging/s3" ++ ascii "/" ++ PathEscape (ascii "a/b c"))] ∧
    PathEscape (ascii "a/b c") = ascii "a%2Fb%20c" ∧
    PathEscape (ascii "a/b c") ≠ [] :=
  ⟨(request_method_and_path okClient badDecoder []).2.2.1
      { Service := ascii "SU1Z0isxPaozGVKXdv0eY", Version := 2, Name := ascii "a/b c" }
      (by decide) (by decide) (by decide),
   by decide,
   ((request_method_and_path okClient badDecoder []).2.2.2.2.2 (ascii "a/b c")).2 (by decide)⟩

/-! ## The list is sorted by name -/

/-- C5, counterexample: a ListS3sInput with Service "svc" and Version 3, a
request that succeeds and a decoding that succeeds with a slice of two
elements, the second one nil: ListS3s issues the GET and then panics in the
sort (`Less` reads `Name` through the nil pointer); no list is returned. -/
theorem list_with_nil_entry_panics :
    okClient.roundTrip [] (Call.Get (s3sPath (ascii "svc") 3)) = Except.ok ⟨[]⟩ ∧
    (constDecoder (some entriesWithNil) none none).s3s [] = Except.ok (some entriesWithNil) ∧
    ListS3s okClient (constDecoder (some entriesWithNil) none none)
        { Service := ascii "svc", Version := 3 } []
      = ⟨none, none, [Call.Get (ascii "/service/svc/version/3/logging/s3")], true⟩ :=
  ⟨rfl, rfl, by decide⟩

/-- C5, amended: for a ListS3sInput with non-empty Service and non-zero Version
whose request succeeds and whose response decodes to a slice none of whose
elements is nil, ListS3s returns, without panicking, no error and a list that
is a permutation of the decoded one and ascending by Name in the byte-wise
order of Go strings: any earlier entry has a name that is at most the name of
any later one, adjacent entries in particular. A nil slice is returned as
nil. -/
theorem list_sorted_by_name (c : Client) (d : Decoder) (log : List Call)
    (i : ListS3sInput) (resp : Response) (s : Option (List S3))
    (hs : i.Service ≠ []) (hv : i.Version ≠ 0)
    (h : c.roundTrip log (Call.Get (s3sPath i.Service i.Version)) = Except.ok resp)
    (hd : d.s3s resp.Body = Except.ok (s.map (List.map some))) :
    ∃ r : Option (List S3),
      ListS3s c d i log = ⟨r.map (List.map some), none,
        log ++ [Call.Get (s3sPath i.Service i.Version)], false⟩ ∧
      (r = none ↔ s = none) ∧
      (r.getD []).Perm (s.getD []) ∧
      (r.getD []).Pairwise (fun a b => strLe a.Name b.Name = true) ∧
      (∀ (k : Nat) (hk : k + 1 < (r.getD []).length),
        strLe ((r.getD []).get ⟨k, by omega⟩).Name
          ((r.getD []).get ⟨k + 1, hk⟩).Name = true) := by
  have hsorted : ∀ l : List S3,
      (sortStableTotal lessByName l).Pairwise (fun a b => strLe a.Name b.Name = true) := by
    intro l
    have := sortStableTotal_pairwise lessByName Less_asymm Less_negTrans l
    refine this.imp ?_
    intro a b hab
    simpa [strLe, lessByName] using hab
  cases s with
  | none =>
    refine ⟨none, ?_, by simp, by simp, by simp, ?_⟩
    · exact ListS3s_ok_nil c d log i resp hs hv h hd
    · intro k hk
      simp at hk
  | some l =>
    refine ⟨some (sortStableTotal lessByName l), ?_, by simp, ?_, hsorted l, ?_⟩
    · exact ListS3s_ok c d log i resp (l.map some) _ hs hv h hd (sortStable_map_some l)
    · exact sortStableTotal_perm _ _
    · intro k hk
      exact List.pairwise_iff_get.mp (hsorted l) ⟨k, Nat.lt_of_succ_lt hk⟩ ⟨k + 1, hk⟩
        (by simp)

theorem list_sorted_by_name_witness :
    ListS3s okClient (constDecoder (some (unsortedEntries.map some)) none none)
        { Service := ascii "svc", Version := 3 } []
      = ⟨some (sortedEntries.map some), none,
          [] ++ [Call.Get (s3sPath (ascii "svc") 3)], false⟩ ∧
    sortedEntries.Perm unsortedEntries ∧
    sortedEntries.Pairwise (fun a b => strLe a.Name b.Name = true) := by
  obtain ⟨r, hr, _, hperm, hpair, _⟩ :=
    list_sorted_by_name okClient (constDecoder (some (unsortedEntries.map some)) none none) []
      { Service := ascii "svc", Version := 3 } ⟨[]⟩ (some unsortedEntries)
      (by decide) (by decide) rfl rfl
  have hev : (ListS3s okClient (constDecoder (some (unsortedEntries.map some)) none none)
      { Service := ascii "svc", Version := 3 } []).result
      = some (sortedEntries.map some) := by decide
  rw [hr] at hev
  cases r with
  | none => simp at hev
  | some r =>
    have hrs : r = sortedEntries :=
      List.map_injective_iff.mpr (Option.some_injective _) (Option.some.inj hev)
    subst hrs
    exact ⟨hr, hperm, hpair⟩

/-- C10, counterexample: a ListS3sInput with Service "svc" and Version 3, a
request that succeeds and a decoding that succeeds with a slice of two entries
of the same name followed by a nil element: ListS3s issues the GET and then
panics in the sort; the decoded slice is not returned, in its order or in any
other. -/
theorem same_name_entries_then_nil_panics :
    okClient.roundTrip [] (Call.Get (s3sPath (ascii "svc") 3)) = Except.ok ⟨[]⟩ ∧
    (constDecoder (some sameNameEntriesWithNil) none none).s3s []
      = Except.ok (some sameNameEntriesWithNil) ∧
    ListS3s okClient (constDecoder (some sameNameEntriesWithNil) none none)
        { Service := ascii "svc", Version := 3 } []
      = ⟨none, none, [Call.Get (ascii "/service/svc/version/3/logging/s3")], true⟩ :=
  ⟨rfl, rfl, by decide⟩

/-- C10, amended: for a ListS3sInput with non-empty Service and non-zero
Version whose request succeeds and whose response decodes to a slice none of
whose elements is nil, ListS3s returns without panicking and its sort is
stable: for every name, the entries of that name come in the returned list in
the order they have in the decoded list. A decoded list that is already
ascending by Name is returned unchanged, and sorting the returned list again
changes nothing. -/
theorem list_sort_stable (c : Client) (d : Decoder) (log : List Call)
    (i : ListS3sInput) (resp : Response) (l : List S3)
    (hs : i.Service ≠ []) (hv : i.Version ≠ 0)
    (h : c.roundTrip log (Call.Get (s3sPath i.Service i.Version)) = Except.ok resp)
    (hd : d.s3s resp.Body = Except.ok (some (l.map some))) :
    ∃ r : List S3,
      ListS3s c d i log = ⟨some (r.map some), none,
        log ++ [Call.Get (s3sPath i.Service i.Version)], false⟩ ∧
      (∀ n : GoString, r.filter (fun e => decide (e.Name = n))
        = l.filter (fun e => decide (e.Name = n))) ∧
      (l.Pairwise (fun a b => strLe a.Name b.Name = true) → r = l) ∧
      sortStable s3sByName.Less (r.map some) = some (r.map some) := by
  have hsorted : ∀ l : List S3, l.Pairwise (fun a b => strLe a.Name b.Name = true) →
      sortStableTotal lessByName l = l := by
    intro l hl
    apply sortStableTotal_sorted
    refine hl.imp ?_
    intro a b hab
    simpa [strLe, lessByName] using hab
  refine ⟨sortStableTotal lessByName l, ?_, ?_, hsorted l, ?_⟩
  · exact ListS3s_ok c d log i resp (l.map some) _ hs hv h hd (sortStable_map_some l)
  · intro n
    exact sortStableTotal_filter lessByName _ (Less_sameName n) l
  · rw [sortStable_map_some, hsorted]
    have := sortStableTotal_pairwise lessByName Less_asymm Less_negTrans l
    refine this.imp ?_
    intro a b hab
    simpa [strLe, lessByName] using hab

theorem list_sort_stable_witness :
    (ListS3s okClient (constDecoder (some (unsortedEntries.map some)) none none)
      { Service := ascii "svc", Version := 3 } []).result
      = some (sortedEntries.map some) ∧
    sortedEntries.filter (fun e => decide (e.Name = ascii "a"))
      = unsortedEntries.filter (fun e => decide (e.Name = ascii "a")) ∧
    (ListS3s okClient (constDecoder (some (sortedEntries.map some)) none none)
      { Service := ascii "svc", Version := 3 } []).result
      = some (sortedEntries.map some) := by
  obtain ⟨r, hr, hf, _, _⟩ :=
    list_sort_stable okClient (constDecoder (some (unsortedEntries.map some)) none none) []
      { Service := ascii "svc", Version := 3 } ⟨[]⟩ unsortedEntries
      (by decide) (by decide) rfl rfl
  obtain ⟨r2, hr2, _, hsame, _⟩ :=
    list_sort_stable okClient (constDecoder (some (sortedEntries.map some)) none none) []
      { Service := ascii "svc", Version := 3 } ⟨[]⟩ sortedEntries
      (by decide) (by decide) rfl rfl
  have hr3 : (ListS3s okClient (constDecoder (some (unsortedEntries.map some)) none none)
      { Service := ascii "svc", Version := 3 } []).result
      = some (sortedEntries.map some) := by decide
  have hrs : r = sortedEntries := by
    rw [hr] at hr3
    exact List.map_injective_iff.mpr (Option.some_injective _) (Option.some.inj hr3)
  subst hrs
  refine ⟨by rw [hr], hf _, ?_⟩
  rw [hr2, hsame (by decide)]

/-! ## What CreateS3 and UpdateS3 do not check -/

/-- C2, counterexample: CreateS3 on an input with Service "svc", Version 1 and
an empty Name does not fail with ErrMissingName: it posts the input to
"/service/svc/version/1/logging/s3" and, the request and the decoding
succeeding, returns the decoded entry and no error. -/
theorem create_without_name_is_sent :
    namelessInput.Service ≠ [] ∧ namelessInput.Version ≠ 0 ∧ namelessInput.Name = [] ∧
    CreateS3 okClient (constDecoder none (some { BucketName := ascii "logs" }) none)
        namelessInput []
      = ⟨some { BucketName := ascii "logs" }, none,
          [Call.PostForm (ascii "/service/svc/version/1/logging/s3") namelessInput], false⟩ ∧
    (CreateS3 okClient (constDecoder none (some { BucketName := ascii "logs" }) none)
        namelessInput []).err ≠ some ErrMissingName := by
  decide

/-- C2, amended: CreateS3 does not check Name. For a CreateS3Input with
non-empty Service, non-zero Version and empty Name, CreateS3 returns
ErrMissingKMSKeyID without a request when ServerSideEncryption is "aws:kms"
and the key id is empty, and otherwise issues exactly one PostForm request that
carries the input; it then returns ErrMissingName only if the client call or
the decoder returned that error. -/
theorem create_does_not_check_name (c : Client) (d : Decoder) (log : List Call)
    (i : CreateS3Input) (hs : i.Service ≠ []) (hv : i.Version ≠ 0) (_hn : i.Name = []) :
    (i.ServerSideEncryption = ascii "aws:kms" ∧ i.ServerSideEncryptionKMSKeyID = [] →
      CreateS3 c d i log = ⟨none, some ErrMissingKMSKeyID, log, false⟩) ∧
    (¬ (i.ServerSideEncryption = ascii "aws:kms" ∧ i.ServerSideEncryptionKMSKeyID = []) →
      (CreateS3 c d i log).calls = log ++ [Call.PostForm (s3sPath i.Service i.Version) i] ∧
      ((CreateS3 c d i log).err = some ErrMissingName →
        c.roundTrip log (Call.PostForm (s3sPath i.Service i.Version) i)
          = Except.error ErrMissingName ∨
        ∃ resp, c.roundTrip log (Call.PostForm (s3sPath i.Service i.Version) i)
            = Except.ok resp ∧
          d.s3 resp.Body = Except.error ErrMissingName)) := by
  constructor
  · intro hk
    have hk2 : i.ServerSideEncryption = S3ServerSideEncryptionKMS
        ∧ i.ServerSideEncryptionKMSKeyID = [] := hk
    simp only [CreateS3, if_neg hs, if_neg hv, if_pos hk2]
  · intro hk
    have hk2 : ¬ (i.ServerSideEncryption = S3ServerSideEncryptionKMS
        ∧ i.ServerSideEncryptionKMSKeyID = []) := hk
    cases h : c.roundTrip log (Call.PostForm (s3sPath i.Service i.Version) i) with
    | error e => simp [CreateS3_transport_error c d log i e hs hv hk2 h]
    | ok resp =>
      cases hd : d.s3 resp.Body with
      | error e => simp [CreateS3_decode_error c d log i resp e hs hv hk2 h hd, hd]
      | ok s => simp [CreateS3_ok c d log i resp s hs hv hk2 h hd]

theorem create_does_not_check_name_witness :
    (CreateS3 downClient badDecoder namelessInput []).calls
      = [] ++ [Call.PostForm (s3sPath namelessInput.Service namelessInput.Version)
          namelessInput] ∧
    CreateS3 downClient badDecoder
        { namelessInput with ServerSideEncryption := ascii "aws:kms" } []
      = ⟨none, some ErrMissingKMSKeyID, [], false⟩ :=
  ⟨((create_does_not_check_name downClient badDecoder [] namelessInput
      (by decide) (by decide) rfl).2 (by decide)).1,
   (create_does_not_check_name downClient badDecoder []
      { namelessInput with ServerSideEncryption := ascii "aws:kms" }
      (by decide) (by decide) rfl).1 ⟨rfl, rfl⟩⟩

/-- C9, counterexample: CreateS3 accepts an input whose Redundancy is "glacier"
and whose ServerSideEncryption is "rot13", neither being one of the declared
constants nor empty: the input is posted as it is and no error is returned. -/
theorem create_sends_unlisted_values :
    unlistedInput.Redundancy ∉ [ascii "standard", ascii "reduced_redundancy", []] ∧
    unlistedInput.ServerSideEncryption ∉ [ascii "AES256", ascii "aws:kms", []] ∧
    CreateS3 okClient (constDecoder none none none) unlistedInput []
      = ⟨none, none,
          [Call.PostForm (ascii "/service/svc/version/1/logging/s3") unlistedInput], false⟩ := by
  decide

/-- C9, amended: Redundancy and ServerSideEncryption are strings for which the
constants "standard", "reduced_redundancy", "AES256" and "aws:kms" are
declared; CreateS3 and UpdateS3 do not check them against these constants. For
an input that passes the checks on Service and Version (and Name, in
UpdateS3), any Redundancy and any ServerSideEncryption, other than "aws:kms"
with an empty key id, is sent to the server unchanged. -/
theorem enum_fields_not_checked (c : Client) (d : Decoder) (log : List Call)
    (red : S3Redundancy) (sse : S3ServerSideEncryption) :
    (S3RedundancyStandard = ascii "standard" ∧
      S3RedundancyReduced = ascii "reduced_redundancy" ∧
      S3ServerSideEncryptionAES = ascii "AES256" ∧
      S3ServerSideEncryptionKMS = ascii "aws:kms") ∧
    (∀ i : CreateS3Input, i.Service ≠ [] → i.Version ≠ 0 →
      ¬ (sse = ascii "aws:kms" ∧ i.ServerSideEncryptionKMSKeyID = []) →
      (CreateS3 c d { i with Redundancy := red, ServerSideEncryption := sse } log).calls
        = log ++ [Call.PostForm (s3sPath i.Service i.Version)
            { i with Redundancy := red, ServerSideEncryption := sse }]) ∧
    (∀ i : UpdateS3Input, i.Service ≠ [] → i.Version ≠ 0 → i.Name ≠ [] →
      ¬ (sse = ascii "aws:kms" ∧ i.ServerSideEncryptionKMSKeyID = []) →
      (UpdateS3 c d { i with Redundancy := red, ServerSideEncryption := sse } log).calls
        = log ++ [Call.PutForm (s3Path i.Service i.Version i.Name)
            { i with Redundancy := red, ServerSideEncryption := sse }]) := by
  refine ⟨⟨rfl, rfl, rfl, rfl⟩, fun i hs hv hk => ?_, fun i hs hv hn hk => ?_⟩
  · exact CreateS3_calls c d log { i with Redundancy := red, ServerSideEncryption := sse }
      hs hv hk
  · exact UpdateS3_calls c d log { i with Redundancy := red, ServerSideEncryption := sse }
      hs hv hn hk

theorem enum_fields_not_checked_witness :
    (UpdateS3 okClient badDecoder
      { Service := ascii "svc", Version := 1, Name := ascii "logs",
        Redundancy := ascii "glacier", ServerSideEncryption := ascii "rot13" } []).calls
      = [] ++ [Call.PutForm (s3Path (ascii "svc") 1 (ascii "logs"))
          { Service := ascii "svc", Version := 1, Name := ascii "logs",
            Redundancy := ascii "glacier", ServerSideEncryption := ascii "rot13" }] :=
  (enum_fields_not_checked okClient badDecoder [] (ascii "glacier") (ascii "rot13")).2.2
    { Service := ascii "svc", Version := 1, Name := ascii "logs" }
    (by decide) (by decide) (by decide) (by decide)

end Fastly
